import Mathlib

/-!
Verification development for the receipt-ingestion pipeline
(`main.py` and `src/sheets_storage.py`).

Strings from the Python side are modelled as `List Char`.  The tolerant
JSON decoder `parse_receipt_json`, the per-variant extractors, the
dedup/storage layer `SheetsStorage` (projected onto the columns the
dedup logic reads), and the image branch of `handle_callback`
(`handle_image` below) are shallowly embedded and verified.
-/

set_option maxRecDepth 4096

/-- The whitespace characters skipped by Python's `json` module: space,
tab, newline, carriage return. -/
def jsonWsChars : List Char := [' ', '\t', '\n', '\r']

/-- Whitespace test used by the JSON grammar. -/
def isJsonWs (c : Char) : Bool := decide (c ∈ jsonWsChars)

/-- The characters stripped by Python's `str.strip()` (a superset of JSON
whitespace: ASCII whitespace plus the Unicode space characters). -/
def pyWsChars : List Char :=
  [' ', '\t', '\n', '\r', Char.ofNat 11, Char.ofNat 12,
   Char.ofNat 28, Char.ofNat 29, Char.ofNat 30, Char.ofNat 31,
   Char.ofNat 133, Char.ofNat 160, Char.ofNat 0x1680, Char.ofNat 0x2000,
   Char.ofNat 0x2001, Char.ofNat 0x2002, Char.ofNat 0x2003, Char.ofNat 0x2004,
   Char.ofNat 0x2005, Char.ofNat 0x2006, Char.ofNat 0x2007, Char.ofNat 0x2008,
   Char.ofNat 0x2009, Char.ofNat 0x200A, Char.ofNat 0x2028, Char.ofNat 0x2029,
   Char.ofNat 0x202F, Char.ofNat 0x205F, Char.ofNat 0x3000]

/-- Whitespace test of `str.strip()`. -/
def isPyWs (c : Char) : Bool := decide (c ∈ pyWsChars)

/-- Leading-whitespace strip, as in Python `str.lstrip()`. -/
def pyLstrip (l : List Char) : List Char := l.dropWhile isPyWs

/-- Trailing-whitespace strip, as in Python `str.rstrip()`. -/
def pyRstrip (l : List Char) : List Char := (l.reverse.dropWhile isPyWs).reverse

/-- Python `str.strip()`: strip whitespace from both ends. -/
def pyStrip (l : List Char) : List Char := pyRstrip (pyLstrip l)

/-- Skip JSON whitespace (used inside the JSON grammar). -/
def skipWs (l : List Char) : List Char := l.dropWhile isJsonWs

/-- JSON-whitespace strip of both ends. -/
def jsonStrip (l : List Char) : List Char := ((l.dropWhile isJsonWs).reverse.dropWhile isJsonWs).reverse

/-- The backquote character (0x60), the fence marker character. -/
def bq : Char := Char.ofNat 96

/-- JSON values as `json.loads` produces them.  Numbers keep their source
lexeme (the schema in the prompts only produces string fields, and none of
the verified properties distinguish numerically equal lexemes); strings
keep their raw body, escape sequences included. -/
inductive JVal : Type
  | null : JVal
  | bool (b : Bool) : JVal
  | num (lexeme : List Char) : JVal
  | str (s : List Char) : JVal
  | arr (elems : List JVal) : JVal
  | obj (members : List (List Char × JVal)) : JVal

/-- Simple (single-character) string escapes accepted by strict `json.loads`. -/
def isSimpleEsc (e : Char) : Bool :=
  e == '"' || e == '\\' || e == '/' || e == 'b' || e == 'f' || e == 'n' || e == 'r' || e == 't'

/-- Hexadecimal digit test, for `\uXXXX` escapes. -/
def isHexDig (c : Char) : Bool :=
  c.isDigit || ('a' ≤ c && c ≤ 'f') || ('A' ≤ c && c ≤ 'F')

/-- Does the list start with the given character? -/
def headIs (c : Char) : List Char → Bool
  | x :: _ => x == c
  | [] => false

/-- Integer part of a JSON number: `0`, or a nonzero digit followed by digits
(strict `json.loads` rejects leading zeros). -/
def parseIntPart (l : List Char) : Option (List Char × List Char) :=
  match l with
  | [] => none
  | c :: r =>
    if c = '0' then some ([ '0'], r)
    else if c.isDigit then some (c :: r.takeWhile Char.isDigit, r.dropWhile Char.isDigit)
    else none

/-- Optional fraction part `.digits+` of a JSON number; returns the consumed
lexeme (possibly empty) and the rest. -/
def parseFrac (l : List Char) : List Char × List Char :=
  match l with
  | '.' :: r =>
    let ds := r.takeWhile Char.isDigit
    if ds.isEmpty then ([], l) else ('.' :: ds, r.dropWhile Char.isDigit)
  | _ => ([], l)

/-- Optional exponent part `[eE][+-]?digits+` of a JSON number. -/
def parseExpPart (l : List Char) : List Char × List Char :=
  match l with
  | e :: r =>
    if e = 'e' ∨ e = 'E' then
      match r with
      | s :: r1 =>
        if s = '+' ∨ s = '-' then
          let ds := r1.takeWhile Char.isDigit
          if ds.isEmpty then ([], l) else (e :: s :: ds, r1.dropWhile Char.isDigit)
        else
          let ds := r.takeWhile Char.isDigit
          if ds.isEmpty then ([], l) else (e :: ds, r.dropWhile Char.isDigit)
      | [] => ([], l)
    else ([], l)
  | [] => ([], l)

/-- Number after the optional sign: integer part, optional fraction,
optional exponent; the lexeme is the concatenation. -/
def parseNumBody (sgn l1 : List Char) : Option (JVal × List Char) :=
  match parseIntPart l1 with
  | none => none
  | some (ip, l2) =>
    match parseFrac l2 with
    | (fp, l3) =>
      match parseExpPart l3 with
      | (ep, l4) => some (JVal.num (sgn ++ ip ++ fp ++ ep), l4)

/-- JSON number, per the grammar used by `json.loads`:
`-?(0|[1-9][0-9]*)(\.[0-9]+)?([eE][+-]?[0-9]+)?`. -/
def parseNum (l : List Char) : Option (JVal × List Char) :=
  if headIs '-' l then parseNumBody ['-'] (l.drop 1) else parseNumBody [] l

/-- Literal token (`true` / `false` / `null` tails): succeed when `lit` is a
prefix of the input, consuming it. -/
def expectLit (lit : List Char) (v : JVal) (r : List Char) : Option (JVal × List Char) :=
  if lit.isPrefixOf r then some (v, r.drop lit.length) else none

/-- Four hex digits of a `\uXXXX` escape. -/
def hex4 (r : List Char) : Option (List Char × List Char) :=
  match r with
  | h1 :: h2 :: h3 :: h4 :: r3 =>
    if isHexDig h1 && isHexDig h2 && isHexDig h3 && isHexDig h4 then
      some ([h1, h2, h3, h4], r3)
    else none
  | _ => none

mutual

/-- JSON value parser, dispatching on the first character exactly as the
strict `json.loads` scanner does (no leading whitespace accepted here; the
callers skip it).  Fuel decreases at every call; `json_loads` supplies more
fuel than any realistic input can consume. -/
def parseValue : Nat → List Char → Option (JVal × List Char)
  | 0, _ => none
  | _ + 1, [] => none
  | f + 1, c :: r =>
    if c = '{' then parseObjBody f r
    else if c = '[' then parseArrBody f r
    else if c = '"' then
      match parseStrBody f r with
      | some (s, r2) => some (JVal.str s, r2)
      | none => none
    else if c = 't' then expectLit "rue".data (JVal.bool true) r
    else if c = 'f' then expectLit "alse".data (JVal.bool false) r
    else if c = 'n' then expectLit "ull".data JVal.null r
    else if c = '-' ∨ c.isDigit = true then parseNum (c :: r)
    else none

/-- Object body, entered after the opening `{`. -/
def parseObjBody : Nat → List Char → Option (JVal × List Char)
  | 0, _ => none
  | f + 1, l =>
    match skipWs l with
    | [] => none
    | c :: r => if c = '}' then some (JVal.obj [], r) else parseMembers f (c :: r) []

/-- Object members; the input is positioned at the opening quote of a key
(whitespace already skipped). -/
def parseMembers : Nat → List Char → List (List Char × JVal) → Option (JVal × List Char)
  | 0, _, _ => none
  | _ + 1, [], _ => none
  | f + 1, c :: r, acc =>
      if c = '"' then
        match parseStrBody f r with
        | some (k, r2) =>
          (match skipWs r2 with
          | [] => none
          | c2 :: r3 =>
            if c2 = ':' then
              match parseValue f (skipWs r3) with
              | some (v, r4) =>
                (match skipWs r4 with
                | [] => none
                | c4 :: r5 =>
                  if c4 = ',' then parseMembers f (skipWs r5) (acc ++ [(k, v)])
                  else if c4 = '}' then some (JVal.obj (acc ++ [(k, v)]), r5)
                  else none)
              | none => none
            else none)
        | none => none
      else none

/-- Array body, entered after the opening `[`. -/
def parseArrBody : Nat → List Char → Option (JVal × List Char)
  | 0, _ => none
  | f + 1, l =>
    match skipWs l with
    | [] => none
    | c :: r => if c = ']' then some (JVal.arr [], r) else parseElems f (c :: r) []

/-- Array elements; the input is positioned at the start of an element
(whitespace already skipped). -/
def parseElems : Nat → List Char → List JVal → Option (JVal × List Char)
  | 0, _, _ => none
  | f + 1, l, acc =>
    match parseValue f l with
    | some (v, r) =>
      (match skipWs r with
      | [] => none
      | c2 :: r2 =>
        if c2 = ',' then parseElems f (skipWs r2) (acc ++ [v])
        else if c2 = ']' then some (JVal.arr (acc ++ [v]), r2)
        else none)
    | none => none

/-- String body, entered after the opening quote.  Escape sequences are
validated as by strict `json.loads` (known single-character escapes and
`\uXXXX` with four hex digits; raw control characters rejected) and kept
verbatim in the result. -/
def parseStrBody : Nat → List Char → Option (List Char × List Char)
  | 0, _ => none
  | _ + 1, [] => none
  | f + 1, c :: r =>
      if c = '"' then some ([], r)
      else if c = '\\' then
        match r with
        | [] => none
        | e :: r2 =>
          if e = 'u' then
            match hex4 r2 with
            | some (hs, r3) =>
              (match parseStrBody f r3 with
              | some (s, r4) => some ('\\' :: 'u' :: (hs ++ s), r4)
              | none => none)
            | none => none
          else if isSimpleEsc e then
            match parseStrBody f r2 with
            | some (s, r3) => some ('\\' :: e :: s, r3)
            | none => none
          else none
      else if c.toNat < 32 then none
      else
        match parseStrBody f r with
        | some (s, r2) => some (c :: s, r2)
        | none => none

end

/-- Fuel supplied to the parser: far larger than any model reply (Python
itself would hit its recursion/size limits first). -/
def FUEL : Nat := 1000000000

/-- Model of strict `json.loads`: the module skips whitespace, parses one
value with the strict scanner, skips whitespace again, and requires the end
of input.  Because a JSON value never ends in whitespace, this equals
stripping JSON whitespace from both ends and requiring the value to consume
the text exactly, which is the form used here. -/
def json_loads (l : List Char) : Option JVal :=
  match parseValue FUEL (jsonStrip l) with
  | some (v, r) => if r.isEmpty then some v else none
  | none => none

example : json_loads " \x7b\"a\": [1, true, null], \"b\": \"x\"\x7d ".data =
    some (JVal.obj [("a".data, JVal.arr [JVal.num ['1'], JVal.bool true, JVal.null]),
                    ("b".data, JVal.str "x".data)]) := by rfl

example : json_loads "\x7b\"a\": 1".data = none := by rfl

example : json_loads "01".data = none := by rfl

example : json_loads "-12.50e+3".data = some (JVal.num "-12.50e+3".data) := by rfl

/-- Python `str.splitlines()`, on the line breaks the pipeline can see
(`\n`, `\r`, `\r\n`); a trailing break produces no empty final line and the
empty string yields no lines. -/
def splitlines : List Char → List (List Char)
  | [] => []
  | '\r' :: '\n' :: r => [] :: splitlines r
  | '\r' :: r => [] :: splitlines r
  | '\n' :: r => [] :: splitlines r
  | c :: r =>
    match splitlines r with
    | [] => [[c]]
    | line :: rest => (c :: line) :: rest

/-- Replace the last element of a list. -/
def updLast (f : List Char → List Char) : List (List Char) → List (List Char)
  | [] => []
  | [x] => [f x]
  | x :: y :: r => x :: updLast f (y :: r)

/-- The brace-repair step of `parse_receipt_json` (`main.py` lines
335-342): keep the non-blank lines (`if line.strip()`); prepend `{` to the
first line unless its stripped form starts with `{`; append `}` to the last
line unless its stripped form ends with `}`; join with single spaces.
`none` models the `raise ValueError` on an empty line list (caught by the
enclosing handler, which returns `None`). -/
def repair_code (json_str : List Char) : Option (List Char) :=
  let lines := (splitlines json_str).filter (fun ln => !(pyStrip ln).isEmpty)
  match lines with
  | [] => none
  | l0 :: rest =>
    let lines1 :=
      if headIs '{' (pyStrip l0) then l0 :: rest
      else ('{' :: l0) :: rest
    let lines2 :=
      if (pyStrip (lines1.getLastD [])).getLast? = some '}' then lines1
      else updLast (fun ln => ln ++ [ '}']) lines1
    some (List.intercalate [ ' '] lines2)

/-- Does the text start with the fence marker (three backquotes)? -/
def startsFence (l : List Char) : Bool :=
  match l with
  | a :: b :: c :: _ => a == bq && b == bq && c == bq
  | _ => false

/-- Does the text end with the fence marker? -/
def endsFence (l : List Char) : Bool := startsFence l.reverse

/-- The fence-stripping step of `parse_receipt_json` (`main.py` lines
326-331).  When the stripped text starts with a fence marker, the first
line is removed if a newline exists (`find`/slice); if the remainder ends
with a fence marker, the text is cut at `rfind("```")` — which, on a string
that ends with the marker, is its length minus 3 — and stripped again. -/
def fence_part (json_str : List Char) : List Char :=
  if startsFence json_str then
    let j1 := if json_str.contains '\n'
      then (json_str.dropWhile (fun c => !(c == '\n'))).drop 1
      else json_str
    if endsFence j1 then pyStrip (j1.take (j1.length - 3)) else j1
  else json_str

/-- The tolerant decoder `parse_receipt_json` (`main.py` lines 322-350):
strip; strip a fenced code block; try a strict parse; on failure apply the
brace-repair heuristic and retry once; any remaining failure yields `None`. -/
def parse_receipt_json (s : List Char) : Option JVal :=
  let json_str := fence_part (pyStrip s)
  match json_loads json_str with
  | some v => some v
  | none => (repair_code json_str).bind json_loads

example : parse_receipt_json "\"ReceiptID\": \"1\", \"Items\": []\x7d".data =
    some (JVal.obj [("ReceiptID".data, JVal.str "1".data), ("Items".data, JVal.arr [])]) := by rfl

example : parse_receipt_json ("\x60\x60\x60json\n\x7b\"a\": 1\x7d\n\x60\x60\x60".data) =
    some (JVal.obj [("a".data, JVal.num ['1'])]) := by rfl

example : parse_receipt_json "  \x7b\"a\": false\x7d  ".data =
    some (JVal.obj [("a".data, JVal.bool false)]) := by rfl

example : parse_receipt_json "nonsense".data = none := by rfl

/-! ## Document classifier / extractor (`main.py` lines 353-392) -/

/-- Python truthiness of a JSON value: `None`, `False`, empty containers,
empty strings and (numerically) zero numbers are falsy.  A zero lexeme is
one whose mantissa has no nonzero digit (float underflow of tiny nonzero
exponent forms is not modelled; no verified property depends on numeric
truthiness). -/
def jTruthy : JVal → Bool
  | JVal.null => false
  | JVal.bool b => b
  | JVal.num lex =>
    ((lex.takeWhile (fun c => !(c == 'e') && !(c == 'E'))).filter Char.isDigit).any (fun c => !(c == '0'))
  | JVal.str s => !s.isEmpty
  | JVal.arr xs => !xs.isEmpty
  | JVal.obj kvs => !kvs.isEmpty

/-- Truthiness of a Python variable that may hold `None` (`Option.none`). -/
def jTruthyOpt : Option JVal → Bool
  | none => false
  | some v => jTruthy v

/-- Python `dict.get(key)`: `none` models `None`.  On a parser-produced
object with duplicate keys the later binding wins, hence the reversed
search. -/
def jget (j : JVal) (key : List Char) : Option JVal :=
  match j with
  | JVal.obj kvs => (kvs.reverse.find? (fun p => p.1 == key)).map Prod.snd
  | _ => none

/-- Is the value a Python list? -/
def isArr : JVal → Bool
  | JVal.arr _ => true
  | _ => false

/-- Is the value a Python dict (mapping with `.get`)? -/
def pyIsMap : JVal → Bool
  | JVal.obj _ => true
  | _ => false

/-- First element of a (non-empty) list value; only applied under a
truthiness guard. -/
def firstElem : JVal → JVal
  | JVal.arr (x :: _) => x
  | _ => JVal.null

/-- Shared shape of the four extractors: primary record under `key`
(first element if the value is a truthy list, else the value itself),
child items under `itemsKey` normalised by `... or []`.  Returns `none`
when the decoded value is truthy but not a mapping — there
`receipt_json_obj.get` raises `AttributeError`, which no caller catches. -/
def extract_variant_data (key itemsKey : List Char) (j : JVal) :
    Option (JVal × Option JVal) :=
  if jTruthy j then
    match j with
    | JVal.obj kvs =>
      let primary :=
        match jget (JVal.obj kvs) key with
        | some v => if jTruthy v && isArr v then some (firstElem v) else some v
        | none => none
      let items :=
        match jget (JVal.obj kvs) itemsKey with
        | some v => if jTruthy v then v else JVal.arr []
        | none => JVal.arr []
      some (items, primary)
    | _ => none
  else some (JVal.arr [], none)

/-- `extract_receipt_data` (`main.py` 353-361): returns `(items, receipt_obj)`. -/
def extract_receipt_data (j : JVal) : Option (JVal × Option JVal) :=
  extract_variant_data "Receipt".data "Items".data j

/-- `extract_ticket_data` (`main.py` 364-372): returns `(segments, ticket_obj)`. -/
def extract_ticket_data (j : JVal) : Option (JVal × Option JVal) :=
  extract_variant_data "Ticket".data "Segments".data j

/-- `extract_hotel_data` (`main.py` 375-383): returns `(room_details, hotel_obj)`. -/
def extract_hotel_data (j : JVal) : Option (JVal × Option JVal) :=
  extract_variant_data "Hotel".data "RoomDetails".data j

/-- `extract_attraction_data` (`main.py` 386-392): returns the attraction
record only (there is no child-item key). -/
def extract_attraction_data (j : JVal) : Option (Option JVal) :=
  if jTruthy j then
    match j with
    | JVal.obj kvs =>
      some (match jget (JVal.obj kvs) "Attraction".data with
        | some v => if jTruthy v && isArr v then some (firstElem v) else some v
        | none => none)
    | _ => none
  else some none

example : extract_receipt_data (JVal.obj [("Receipt".data, JVal.arr [JVal.obj [("ReceiptID".data, JVal.str "1".data)]]), ("Items".data, JVal.arr [])]) =
    some (JVal.arr [], some (JVal.obj [("ReceiptID".data, JVal.str "1".data)])) := by rfl

example : extract_receipt_data (JVal.obj [("Items".data, JVal.str "x".data)]) =
    some (JVal.str "x".data, none) := by rfl

/-! ## `SheetsStorage` (`src/sheets_storage.py`), projected onto the columns
the dedup logic reads.

`store_receipt` / `store_ticket` append one row whose cells are scraped
from the record dict; `receipt_exists` / `ticket_exists` scan all rows and
compare only the `UserID` and `ReceiptID`/`TicketID` cells (`_row_matches`).
A row is therefore modelled by those two cells; the remaining columns
(amounts, serialized items, image formula, timestamp) are never read by any
verified property. -/

/-- One ledger row, projected to the cells `_row_matches` reads. -/
structure SheetRow where
  userId : List Char
  keyId : JVal

/-- The two worksheets (`Receipts`, `Tickets`) backing `SheetsStorage`. -/
structure SheetsState where
  receipts : List SheetRow
  tickets : List SheetRow

/-- The empty (fresh) ledger. -/
def freshState : SheetsState := ⟨[], []⟩

/-- Python `str()` of a cell value, as applied by `_row_matches`.  Every
verified property stores string cells, where `str` is the identity; the
other constructors get their Python renderings (containers abbreviated,
unused). -/
def pyStr : JVal → List Char
  | JVal.str s => s
  | JVal.null => "None".data
  | JVal.bool true => "True".data
  | JVal.bool false => "False".data
  | JVal.num lex => lex
  | JVal.arr _ => "[...]".data
  | JVal.obj _ => "\x7b...\x7d".data

/-- `SheetsStorage._row_matches`: `str(row.get("UserID", "")) == user_id and
str(row.get(key, "")) == value`.  The probe `value` is compared unconverted,
so a non-string probe never equals the stringified cell. -/
def row_matches (row : SheetRow) (user : List Char) (value : JVal) : Bool :=
  row.userId == user &&
    (match value with
     | JVal.str s => pyStr row.keyId == s
     | _ => false)

/-- `SheetsStorage._row_exists`: scan all records for a match. -/
def row_exists (rows : List SheetRow) (user : List Char) (value : JVal) : Bool :=
  rows.any (fun row => row_matches row user value)

/-- `SheetsStorage.receipt_exists` (lines 360-363). -/
def receipt_exists (st : SheetsState) (user : List Char) (receipt_id : JVal) : Bool :=
  if !jTruthy receipt_id then false
  else row_exists st.receipts user receipt_id

/-- `SheetsStorage.ticket_exists` (lines 365-368). -/
def ticket_exists (st : SheetsState) (user : List Char) (ticket_id : JVal) : Bool :=
  if !jTruthy ticket_id then false
  else row_exists st.tickets user ticket_id

/-- `SheetsStorage.store_receipt` (lines 289-320): `raise ValueError` on a
falsy record (`none` here), `AttributeError` from `.get` on a non-mapping
(`none` as well — both are caught at the `add_receipt` call site); otherwise
append one row with the cells scraped via `receipt_data.get(..., "")`. -/
def store_receipt (st : SheetsState) (user : List Char) (receipt_data : JVal) :
    Option SheetsState :=
  if !jTruthy receipt_data then none
  else
    match receipt_data with
    | JVal.obj kvs =>
      some { st with receipts :=
        st.receipts ++ [⟨user, (jget (JVal.obj kvs) "ReceiptID".data).getD (JVal.str [])⟩] }
    | _ => none

/-- `SheetsStorage.store_ticket` (lines 322-358), same shape. -/
def store_ticket (st : SheetsState) (user : List Char) (ticket_data : JVal) :
    Option SheetsState :=
  if !jTruthy ticket_data then none
  else
    match ticket_data with
    | JVal.obj kvs =>
      some { st with tickets :=
        st.tickets ++ [⟨user, (jget (JVal.obj kvs) "TicketID".data).getD (JVal.str [])⟩] }
    | _ => none

/-- Every method defined on `SheetsStorage` (class body of
`src/sheets_storage.py`). -/
def sheetsStorageMethodNames : List String :=
  ["__init__", "_build_credentials", "_ensure_worksheet", "_ensure_header_row",
   "_now", "_dumps", "_get_drive_service", "_find_or_create_folder",
   "_get_image_folder_id", "upload_image_to_drive", "get_shareable_link",
   "upload_and_get_image_url", "get_image_formula", "store_receipt",
   "store_ticket", "receipt_exists", "ticket_exists", "_row_matches",
   "_row_exists", "get_user_snapshot", "_deserialize_rows", "clear_user_data",
   "_delete_rows_by_user"]

/-- Does `SheetsStorage` define the named method? -/
def hasStorageMethod (name : String) : Bool :=
  sheetsStorageMethodNames.contains name

/-- Attribute lookup `sheets_storage.store_hotel`: the class defines no such
method, so the call raises `AttributeError` (`none`); the `then` branch is
dead and leaves the state unchanged as a placeholder. -/
def sheets_store_hotel (st : SheetsState) (_user : List Char)
    (_hotel_data _room_details : JVal) : Option SheetsState :=
  if hasStorageMethod "store_hotel" then some st else none

/-- Attribute lookup `sheets_storage.hotel_exists`: absent, `AttributeError`. -/
def sheets_hotel_exists (_st : SheetsState) (_user : List Char)
    (_hotel_id : JVal) : Option Bool :=
  if hasStorageMethod "hotel_exists" then some false else none

/-- Attribute lookup `sheets_storage.store_attraction`: absent, `AttributeError`. -/
def sheets_store_attraction (st : SheetsState) (_user : List Char)
    (_attraction_data : JVal) : Option SheetsState :=
  if hasStorageMethod "store_attraction" then some st else none

/-- Attribute lookup `sheets_storage.attraction_exists`: absent, `AttributeError`. -/
def sheets_attraction_exists (_st : SheetsState) (_user : List Char)
    (_attraction_id : JVal) : Option Bool :=
  if hasStorageMethod "attraction_exists" then some false else none

/-! ## The storage wrappers of `main.py` (lines 243-318): every call is in a
`try`/`except` that logs and swallows the exception, so a raising store
leaves the state unchanged and a raising existence check returns `False`. -/

/-- `add_receipt` (lines 243-249).  The `receipt_data.get("ReceiptID")` on
the first line raises on a non-mapping, caught like every other error. -/
def add_receipt (st : SheetsState) (user : List Char) (receipt_data : JVal) :
    SheetsState :=
  match receipt_data with
  | JVal.obj kvs => (store_receipt st user (JVal.obj kvs)).getD st
  | _ => st

/-- `add_ticket` (lines 252-260): additionally raises (and swallows) a
`ValueError` when the `TicketID` is falsy, leaving the state unchanged. -/
def add_ticket (st : SheetsState) (user : List Char) (ticket_data : JVal) :
    SheetsState :=
  match ticket_data with
  | JVal.obj kvs =>
    if !jTruthyOpt (jget (JVal.obj kvs) "TicketID".data) then st
    else (store_ticket st user (JVal.obj kvs)).getD st
  | _ => st

/-- `check_if_receipt_exists` (lines 263-270): falsy id short-circuits to
`False`; exceptions from the storage call return `False`. -/
def check_if_receipt_exists (st : SheetsState) (user : List Char)
    (receipt_id : Option JVal) : Bool :=
  match receipt_id with
  | none => false
  | some v => if !jTruthy v then false else receipt_exists st user v

/-- `check_if_ticket_exists` (lines 273-280). -/
def check_if_ticket_exists (st : SheetsState) (user : List Char)
    (ticket_id : Option JVal) : Bool :=
  match ticket_id with
  | none => false
  | some v => if !jTruthy v then false else ticket_exists st user v

/-- `add_hotel` (lines 283-289): `sheets_storage.store_hotel` raises
`AttributeError`, which the `except` swallows — a silent no-op. -/
def add_hotel (st : SheetsState) (user : List Char)
    (hotel_data room_details : JVal) : SheetsState :=
  (sheets_store_hotel st user hotel_data room_details).getD st

/-- `add_attraction` (lines 292-298): same silent no-op. -/
def add_attraction (st : SheetsState) (user : List Char)
    (attraction_data : JVal) : SheetsState :=
  (sheets_store_attraction st user attraction_data).getD st

/-- `check_if_hotel_exists` (lines 301-308): falsy id gives `False`; the
`hotel_exists` attribute lookup raises and the handler returns `False`. -/
def check_if_hotel_exists (st : SheetsState) (user : List Char)
    (hotel_id : Option JVal) : Bool :=
  match hotel_id with
  | none => false
  | some v =>
    if !jTruthy v then false
    else (sheets_hotel_exists st user v).getD false

/-- `check_if_attraction_exists` (lines 311-318). -/
def check_if_attraction_exists (st : SheetsState) (user : List Char)
    (attraction_id : Option JVal) : Bool :=
  match attraction_id with
  | none => false
  | some v =>
    if !jTruthy v then false
    else (sheets_attraction_exists st user v).getD false

/-! ## The image branch of `handle_callback` (`main.py` lines 806-961) -/

/-- The four recognized document variants. -/
inductive Variant : Type
  | receipt | ticket | hotel | attraction

/-- The user-visible outcome of one image pipeline run, one constructor per
fixed reply (§7 of the spec). -/
inductive Reply : Type
  | noResult                      -- line 818: model returned nothing
  | decodeFailed                  -- line 830: original JSON did not parse
  | twDecodeFailed                -- line 837: translated JSON did not parse
  | twVariantFailed (v : Variant) -- lines 853/877/908/934: translated record is None
  | missingId (v : Variant)       -- lines 885/915/941: identifier falsy
  | processed (v : Variant) (duplicate : Bool) -- flex reply, with/without dup notice
  | unrecognized                  -- line 958: no variant matched

/-- Result of one image pipeline run: the reply sent (`none` when an
unhandled exception escaped before any reply), the ledger state afterwards,
and whether the temporary image file was removed. -/
structure RunResult where
  reply : Option Reply
  state : SheetsState
  cleaned : Bool

/-- Can `for item in items: item.get(...)` run without raising?  Lists need
every element to be a mapping; strings iterate to characters and dicts to
string keys (both lack `.get` unless the iteration is empty); the rest are
not iterable. -/
def renderItemsOk : JVal → Bool
  | JVal.arr xs => xs.all pyIsMap
  | JVal.str s => s.isEmpty
  | JVal.obj kvs => kvs.isEmpty
  | _ => false

/-- Does `get_receipt_flex_msg(receipt_data, items)` run without raising?
It calls `receipt_data.get(...)` and `item.get(...)` per item.
`get_train_ticket_flex_msg` and `get_hotel_flex_msg` have the same shape. -/
def renderRecordOk (record items : JVal) : Bool :=
  pyIsMap record && renderItemsOk items

/-- Does `get_attraction_flex_msg(attraction_data)` run without raising? -/
def renderAttractionOk (record : JVal) : Bool :=
  pyIsMap record

/-- The receipt branch (`main.py` lines 850-873), entered with a truthy
`receipt`.  Order of effects: translated-record `is None` check; original
`receipt.get("ReceiptID")` (raises on a non-mapping); duplicate check with
the ORIGINAL id; on a non-duplicate, store of the TRANSLATED record; flex
rendering of the original then the translated record; reply and cleanup. -/
def receipt_branch (st : SheetsState) (user : List Char)
    (items : JVal) (receipt : Option JVal) (tw_items : JVal) (tw_receipt : Option JVal) :
    RunResult :=
  match tw_receipt with
  | none => ⟨some (Reply.twVariantFailed Variant.receipt), st, true⟩
  | some twr =>
    match receipt with
    | some (JVal.obj rkvs) =>
      let receipt_id := jget (JVal.obj rkvs) "ReceiptID".data
      if check_if_receipt_exists st user receipt_id then
        if renderRecordOk (JVal.obj rkvs) items && renderRecordOk twr tw_items then
          ⟨some (Reply.processed Variant.receipt true), st, true⟩
        else ⟨none, st, false⟩
      else
        let st2 := add_receipt st user twr
        if renderRecordOk (JVal.obj rkvs) items && renderRecordOk twr tw_items then
          ⟨some (Reply.processed Variant.receipt false), st2, true⟩
        else ⟨none, st2, false⟩
    | _ => ⟨none, st, false⟩  -- receipt.get on a non-mapping: AttributeError

/-- The ticket branch (`main.py` lines 874-904): translated-record check,
`ticket.get("TicketID")`, missing-id check, duplicate check (original id),
store of the translated record, rendering, reply, cleanup. -/
def ticket_branch (st : SheetsState) (user : List Char)
    (segments : JVal) (ticket : Option JVal) (tw_segments : JVal) (tw_ticket : Option JVal) :
    RunResult :=
  match tw_ticket with
  | none => ⟨some (Reply.twVariantFailed Variant.ticket), st, true⟩
  | some twt =>
    match ticket with
    | some (JVal.obj tkvs) =>
      let ticket_id := jget (JVal.obj tkvs) "TicketID".data
      if !jTruthyOpt ticket_id then ⟨some (Reply.missingId Variant.ticket), st, true⟩
      else if check_if_ticket_exists st user ticket_id then
        if renderRecordOk (JVal.obj tkvs) segments && renderRecordOk twt tw_segments then
          ⟨some (Reply.processed Variant.ticket true), st, true⟩
        else ⟨none, st, false⟩
      else
        let st2 := add_ticket st user twt
        if renderRecordOk (JVal.obj tkvs) segments && renderRecordOk twt tw_segments then
          ⟨some (Reply.processed Variant.ticket false), st2, true⟩
        else ⟨none, st2, false⟩
    | _ => ⟨none, st, false⟩

/-- The hotel branch (`main.py` lines 905-930): translated-record check,
`hotel.get("HotelID")`, missing-id check, duplicate check (always false —
see `sheets_hotel_exists`), silent no-op store, rendering of the
TRANSLATED record only, reply, cleanup. -/
def hotel_branch (st : SheetsState) (user : List Char)
    (hotel : Option JVal) (tw_room_details : JVal) (tw_hotel : Option JVal) :
    RunResult :=
  match tw_hotel with
  | none => ⟨some (Reply.twVariantFailed Variant.hotel), st, true⟩
  | some twh =>
    match hotel with
    | some (JVal.obj hkvs) =>
      let hotel_id := jget (JVal.obj hkvs) "HotelID".data
      if !jTruthyOpt hotel_id then ⟨some (Reply.missingId Variant.hotel), st, true⟩
      else if check_if_hotel_exists st user hotel_id then
        if renderRecordOk twh tw_room_details then
          ⟨some (Reply.processed Variant.hotel true), st, true⟩
        else ⟨none, st, false⟩
      else
        let st2 := add_hotel st user twh tw_room_details
        if renderRecordOk twh tw_room_details then
          ⟨some (Reply.processed Variant.hotel false), st2, true⟩
        else ⟨none, st2, false⟩
    | _ => ⟨none, st, false⟩

/-- The attraction branch (`main.py` lines 931-956). -/
def attraction_branch (st : SheetsState) (user : List Char)
    (attraction : Option JVal) (tw_attraction : Option JVal) :
    RunResult :=
  match tw_attraction with
  | none => ⟨some (Reply.twVariantFailed Variant.attraction), st, true⟩
  | some twa =>
    match attraction with
    | some (JVal.obj akvs) =>
      let attraction_id := jget (JVal.obj akvs) "AttractionID".data
      if !jTruthyOpt attraction_id then ⟨some (Reply.missingId Variant.attraction), st, true⟩
      else if check_if_attraction_exists st user attraction_id then
        if renderAttractionOk twa then
          ⟨some (Reply.processed Variant.attraction true), st, true⟩
        else ⟨none, st, false⟩
      else
        let st2 := add_attraction st user twa
        if renderAttractionOk twa then
          ⟨some (Reply.processed Variant.attraction false), st2, true⟩
        else ⟨none, st2, false⟩
    | _ => ⟨none, st, false⟩

/-- One run of the image branch of `handle_callback` (`main.py` 806-961),
from the raw model reply `result_text` and raw translated reply
`tw_result_text` to the reply sent, the ledger state, and whether the
temporary image file was removed.  The eight extractor calls (lines
842-849) happen before any branch; if one raises (truthy non-mapping JSON)
the exception escapes with no reply and no cleanup. -/
def handle_image (st : SheetsState) (user : List Char)
    (result_text tw_result_text : List Char) : RunResult :=
  if result_text.isEmpty then ⟨some Reply.noResult, st, true⟩
  else
    match parse_receipt_json result_text with
    | none => ⟨some Reply.decodeFailed, st, true⟩
    | some parsed =>
      match parse_receipt_json tw_result_text with
      | none => ⟨some Reply.twDecodeFailed, st, true⟩
      | some parsed_tw =>
        match extract_receipt_data parsed, extract_ticket_data parsed,
              extract_hotel_data parsed, extract_attraction_data parsed,
              extract_receipt_data parsed_tw, extract_ticket_data parsed_tw,
              extract_hotel_data parsed_tw, extract_attraction_data parsed_tw with
        | some (items, receipt), some (segments, ticket),
          some (_room_details, hotel), some attraction,
          some (tw_items, tw_receipt), some (tw_segments, tw_ticket),
          some (tw_room_details, tw_hotel), some tw_attraction =>
          if jTruthyOpt receipt then
            receipt_branch st user items receipt tw_items tw_receipt
          else if jTruthyOpt ticket then
            ticket_branch st user segments ticket tw_segments tw_ticket
          else if jTruthyOpt hotel then
            hotel_branch st user hotel tw_room_details tw_hotel
          else if jTruthyOpt attraction then
            attraction_branch st user attraction tw_attraction
          else ⟨some Reply.unrecognized, st, true⟩
        | _, _, _, _, _, _, _, _ => ⟨none, st, false⟩

/-- The fixed variant priority order of the dispatch. -/
def variantOrder : List Variant :=
  [Variant.receipt, Variant.ticket, Variant.hotel, Variant.attraction]

/-- Select a variant's primary record from the four extraction results. -/
def primaryOf (v : Variant) (receipt ticket hotel attraction : Option JVal) : Option JVal :=
  match v with
  | Variant.receipt => receipt
  | Variant.ticket => ticket
  | Variant.hotel => hotel
  | Variant.attraction => attraction

/-! ## Helper lemmas: whitespace, `dropWhile`, strips -/

theorem isPyWs_of_isJsonWs {c : Char} (h : isJsonWs c = true) : isPyWs c = true := by
  have hc : c ∈ jsonWsChars := by simpa [isJsonWs] using h
  have hall : ∀ x ∈ jsonWsChars, isPyWs x = true := by decide
  exact hall c hc

theorem dropWhile_append_all {p : Char → Bool} {l₁ : List Char} (l₂ : List Char)
    (h : ∀ c ∈ l₁, p c = true) :
    (l₁ ++ l₂).dropWhile p = l₂.dropWhile p := by
  induction l₁ with
  | nil => rfl
  | cons c t ih =>
    have hc : p c = true := h c (by simp)
    simp only [List.cons_append, List.dropWhile_cons, hc, if_true]
    exact ih (fun x hx => h x (by simp [hx]))

theorem dropWhile_cons_of_neg {p : Char → Bool} {c : Char} (l : List Char)
    (h : p c = false) : (c :: l).dropWhile p = c :: l := by
  simp [List.dropWhile_cons, h]

/-- A stronger `dropWhile` predicate drops the same prefix when it is false
at the first survivor of the weaker one. -/
theorem dropWhile_stronger {p q : Char → Bool}
    (hpq : ∀ c, p c = true → q c = true) :
    ∀ l : List Char, (∀ c r, l.dropWhile p = c :: r → q c = false) →
      l.dropWhile q = l.dropWhile p := by
  intro l
  induction l with
  | nil => intro _; rfl
  | cons c t ih =>
    intro h
    by_cases hc : p c = true
    · simp only [List.dropWhile_cons, hc, if_true, hpq c hc]
      exact ih (fun x r hx => h x r (by simpa [List.dropWhile_cons, hc] using hx))
    · have hc' : p c = false := by simpa using hc
      have hq : q c = false := h c t (by simp [List.dropWhile_cons, hc'])
      simp [List.dropWhile_cons, hc', hq]

/-- Decomposition of a right strip: the list is the stripped part followed by
a suffix of stripped characters. -/
theorem rstrip_decomp (p : Char → Bool) (l : List Char) :
    ∃ w, l = (l.reverse.dropWhile p).reverse ++ w ∧ ∀ c ∈ w, p c = true := by
  refine ⟨(l.reverse.takeWhile p).reverse, ?_, ?_⟩
  · have h0 : l.reverse.takeWhile p ++ l.reverse.dropWhile p = l.reverse :=
      List.takeWhile_append_dropWhile p l.reverse
    calc l = l.reverse.reverse := (List.reverse_reverse l).symm
      _ = (l.reverse.takeWhile p ++ l.reverse.dropWhile p).reverse := by rw [h0]
      _ = (l.reverse.dropWhile p).reverse ++ (l.reverse.takeWhile p).reverse := by
          rw [List.reverse_append]
  · intro c hc
    rw [List.mem_reverse] at hc
    exact List.mem_takeWhile_imp hc

/-- Computing a right strip when the trailing stripped block is known. -/
theorem rstrip_eval {p : Char → Bool} (pre : List Char) {d : Char} {w : List Char}
    (hd : p d = false) (hw : ∀ c ∈ w, p c = true) :
    ((pre ++ d :: w).reverse.dropWhile p).reverse = pre ++ [d] := by
  have h1 : (pre ++ d :: w).reverse = w.reverse ++ d :: pre.reverse := by
    simp
  rw [h1, dropWhile_append_all _ (fun c hc => hw c (by simpa using hc)),
    dropWhile_cons_of_neg _ hd]
  simp

theorem takeWhile_append_dropWhile' (p : Char → Bool) (l : List Char) :
    l = l.takeWhile p ++ l.dropWhile p :=
  (List.takeWhile_append_dropWhile (p := p) (l := l)).symm

/-! ## Shape lemmas for the JSON parser -/

/-- Characters that can start a JSON value in the strict scanner. -/
def jsonStartChar (c : Char) : Prop :=
  c = '{' ∨ c = '[' ∨ c = '"' ∨ c = 't' ∨ c = 'f' ∨ c = 'n' ∨ c = '-' ∨ c.isDigit = true

/-- Characters that can end a JSON value. -/
def jsonEndChar (c : Char) : Prop :=
  c = '}' ∨ c = ']' ∨ c = '"' ∨ c = 'e' ∨ c = 'l' ∨ c.isDigit = true

theorem isDigit_not_pyWs {c : Char} (h : c.isDigit = true) : isPyWs c = false := by
  by_cases hw : isPyWs c = true
  · exfalso
    have hc : c ∈ pyWsChars := by simpa [isPyWs] using hw
    have hall : ∀ x ∈ pyWsChars, x.isDigit = false := by decide
    simp [hall c hc] at h
  · simpa using hw

theorem jsonStartChar_not_pyWs {c : Char} (h : jsonStartChar c) : isPyWs c = false := by
  rcases h with h | h | h | h | h | h | h | h
  all_goals first
    | (subst h; decide)
    | (exact isDigit_not_pyWs h)

theorem jsonEndChar_not_pyWs {c : Char} (h : jsonEndChar c) : isPyWs c = false := by
  rcases h with h | h | h | h | h | h
  all_goals first
    | (subst h; decide)
    | (exact isDigit_not_pyWs h)

theorem jsonStartChar_ne_bq {c : Char} (h : jsonStartChar c) : (c == bq) = false := by
  rcases h with h | h | h | h | h | h | h | h
  all_goals first
    | (subst h; decide)
    | (simp only [beq_eq_false_iff_ne, ne_eq]; intro hc; subst hc; revert h; decide)

/-- A successful value parse starts at a JSON start character. -/
theorem parseValue_start {f : Nat} {l : List Char} {x : JVal × List Char}
    (h : parseValue f l = some x) : ∃ c r, l = c :: r ∧ jsonStartChar c := by
  match f, l with
  | 0, _ => simp [parseValue] at h
  | _ + 1, [] => simp [parseValue] at h
  | f + 1, c :: r =>
    refine ⟨c, r, rfl, ?_⟩
    unfold parseValue at h
    unfold jsonStartChar
    by_cases h1 : c = '{'; · tauto
    by_cases h2 : c = '['; · tauto
    by_cases h3 : c = '"'; · tauto
    by_cases h4 : c = 't'; · tauto
    by_cases h5 : c = 'f'; · tauto
    by_cases h6 : c = 'n'; · tauto
    by_cases h7 : c = '-' ∨ c.isDigit = true; · tauto
    simp [h1, h2, h3, h4, h5, h6, h7] at h

/-- The parse of `l` succeeded leaving `r`: the consumed part is non-empty
and ends in a JSON end character. -/
def EndsAt (l r : List Char) : Prop :=
  ∃ pre d, l = pre ++ d :: r ∧ jsonEndChar d

theorem EndsAt_shift {l' r : List Char} (a : List Char) {l : List Char}
    (hl : l = a ++ l') (h : EndsAt l' r) : EndsAt l r := by
  obtain ⟨pre, d, hpre, hd⟩ := h
  exact ⟨a ++ pre, d, by rw [hl, hpre, List.append_assoc], hd⟩

theorem EndsAt.to_append {l r : List Char} (h : EndsAt l r) : ∃ a, l = a ++ r := by
  obtain ⟨pre, d, hpre, _⟩ := h
  exact ⟨pre ++ [d], by rw [hpre]; simp⟩

theorem skipWs_decomp (l : List Char) : l = l.takeWhile isJsonWs ++ skipWs l :=
  takeWhile_append_dropWhile' _ _

/-- The list ends in a decimal digit. -/
def EndsDigit (xs : List Char) : Prop :=
  ∃ p d, xs = p ++ [d] ∧ d.isDigit = true

theorem EndsDigit_of_all {xs : List Char} (hne : xs ≠ [])
    (h : ∀ c ∈ xs, c.isDigit = true) : EndsDigit xs := by
  refine ⟨xs.dropLast, xs.getLast hne, ?_, h _ (List.getLast_mem hne)⟩
  exact (List.dropLast_append_getLast hne).symm

theorem EndsDigit_append_left (xs : List Char) {ys : List Char}
    (h : EndsDigit ys) : EndsDigit (xs ++ ys) := by
  obtain ⟨p, d, hp, hd⟩ := h
  exact ⟨xs ++ p, d, by rw [hp, List.append_assoc], hd⟩

theorem cons_eq_append (c : Char) (l : List Char) : c :: l = [c] ++ l := rfl

theorem append_cons_eq (a : List Char) (c : Char) (l : List Char) :
    a ++ c :: l = (a ++ [c]) ++ l := by simp

theorem EndsDigit_takeWhile {r : List Char}
    (hne : (r.takeWhile Char.isDigit).isEmpty = false) :
    EndsDigit (r.takeWhile Char.isDigit) :=
  EndsDigit_of_all (by simpa [List.isEmpty_iff] using hne)
    (fun _ hc => List.mem_takeWhile_imp hc)

theorem parseIntPart_decomp {l ip l2 : List Char}
    (h : parseIntPart l = some (ip, l2)) : l = ip ++ l2 ∧ EndsDigit ip := by
  unfold parseIntPart at h
  match l with
  | [] => simp at h
  | c :: r =>
    by_cases h0 : c = '0'
    · simp only [h0, if_true, Option.some.injEq, Prod.mk.injEq] at h
      obtain ⟨h1, h2⟩ := h
      subst h1 h2 h0
      exact ⟨rfl, ⟨[], '0', rfl, by decide⟩⟩
    · by_cases hd : c.isDigit = true
      · simp only [h0, if_false, hd, if_true, Option.some.injEq, Prod.mk.injEq] at h
        obtain ⟨h1, h2⟩ := h
        subst h1 h2
        constructor
        · conv_lhs => rw [show r = r.takeWhile Char.isDigit ++ r.dropWhile Char.isDigit from
            takeWhile_append_dropWhile' _ _]
          exact (List.cons_append _ _ _).symm
        · refine EndsDigit_of_all (by simp) ?_
          intro x hx
          rcases List.mem_cons.mp hx with hx | hx
          · subst hx; exact hd
          · exact List.mem_takeWhile_imp hx
      · simp only [h0, if_false, hd, if_false] at h
        exact absurd h (by simp)

theorem parseFrac_decomp {l fp l3 : List Char} (h : parseFrac l = (fp, l3)) :
    l = fp ++ l3 ∧ (fp = [] ∨ EndsDigit fp) := by
  unfold parseFrac at h
  split at h
  next r =>
    by_cases he : (r.takeWhile Char.isDigit).isEmpty = true
    · simp only [if_pos he, Prod.mk.injEq] at h
      obtain ⟨h1, h2⟩ := h; subst h1 h2
      exact ⟨rfl, Or.inl rfl⟩
    · simp only [if_neg he, Prod.mk.injEq] at h
      obtain ⟨h1, h2⟩ := h; subst h1 h2
      refine ⟨?_, Or.inr ?_⟩
      · conv_lhs => rw [show r = r.takeWhile Char.isDigit ++ r.dropWhile Char.isDigit from
          takeWhile_append_dropWhile' _ _]
        exact (List.cons_append _ _ _).symm
      · exact EndsDigit_append_left ['.']
          (EndsDigit_takeWhile (by simpa using he))
  next =>
    simp only [Prod.mk.injEq] at h
    obtain ⟨h1, h2⟩ := h; subst h1 h2
    exact ⟨rfl, Or.inl rfl⟩

theorem parseExpPart_decomp {l ep l4 : List Char} (h : parseExpPart l = (ep, l4)) :
    l = ep ++ l4 ∧ (ep = [] ∨ EndsDigit ep) := by
  unfold parseExpPart at h
  split at h
  next e r =>
    by_cases he : e = 'e' ∨ e = 'E'
    · rw [if_pos he] at h
      split at h
      next s r1 =>
        by_cases hs : s = '+' ∨ s = '-'
        · rw [if_pos hs] at h
          by_cases hd : (r1.takeWhile Char.isDigit).isEmpty = true
          · rw [if_pos hd] at h
            simp only [Prod.mk.injEq] at h
            obtain ⟨h1, h2⟩ := h; subst h1 h2
            exact ⟨rfl, Or.inl rfl⟩
          · rw [if_neg hd] at h
            simp only [Prod.mk.injEq] at h
            obtain ⟨h1, h2⟩ := h; subst h1 h2
            refine ⟨?_, Or.inr ?_⟩
            · conv_lhs => rw [show r1 = r1.takeWhile Char.isDigit ++ r1.dropWhile Char.isDigit
                from takeWhile_append_dropWhile' _ _]
              simp
            · exact EndsDigit_append_left [e, s]
                (EndsDigit_takeWhile (r := r1) (by simpa using hd))
        · rw [if_neg hs] at h
          by_cases hd : ((s :: r1).takeWhile Char.isDigit).isEmpty = true
          · rw [if_pos hd] at h
            simp only [Prod.mk.injEq] at h
            obtain ⟨h1, h2⟩ := h; subst h1 h2
            exact ⟨rfl, Or.inl rfl⟩
          · rw [if_neg hd] at h
            simp only [Prod.mk.injEq] at h
            obtain ⟨h1, h2⟩ := h; subst h1 h2
            refine ⟨?_, Or.inr ?_⟩
            · conv_lhs => rw [show (s :: r1) =
                (s :: r1).takeWhile Char.isDigit ++ (s :: r1).dropWhile Char.isDigit
                from takeWhile_append_dropWhile' _ _]
              simp
            · exact EndsDigit_append_left [e]
                (EndsDigit_takeWhile (r := s :: r1) (by simpa using hd))
      next =>
        simp only [Prod.mk.injEq] at h
        obtain ⟨h1, h2⟩ := h; subst h1 h2
        exact ⟨rfl, Or.inl rfl⟩
    · rw [if_neg he] at h
      simp only [Prod.mk.injEq] at h
      obtain ⟨h1, h2⟩ := h; subst h1 h2
      exact ⟨rfl, Or.inl rfl⟩
  next =>
    simp only [Prod.mk.injEq] at h
    obtain ⟨h1, h2⟩ := h; subst h1 h2
    exact ⟨rfl, Or.inl rfl⟩

/-- `parseNumBody` consumes a lexeme ending in a digit. -/
theorem parseNumBody_endsAt {sgn l1 : List Char} {v : JVal} {r : List Char}
    (h : parseNumBody sgn l1 = some (v, r)) :
    ∃ pre d, sgn ++ l1 = pre ++ d :: r ∧ d.isDigit = true := by
  unfold parseNumBody at h
  match hip : parseIntPart l1 with
  | none => rw [hip] at h; simp at h
  | some (ip, l2) =>
    simp only [hip] at h
    obtain ⟨hl1, hip_end⟩ := parseIntPart_decomp hip
    match hfp : parseFrac l2 with
    | (fp, l3) =>
      simp only [hfp] at h
      obtain ⟨hl2, hfp_end⟩ := parseFrac_decomp hfp
      match hep : parseExpPart l3 with
      | (ep, l4) =>
        simp only [hep] at h
        obtain ⟨hl3, hep_end⟩ := parseExpPart_decomp hep
        simp only [Option.some.injEq, Prod.mk.injEq] at h
        obtain ⟨_, h4⟩ := h
        subst h4
        have hdig : EndsDigit (sgn ++ (ip ++ (fp ++ ep))) := by
          rcases hep_end with hep0 | hepd
          · subst hep0
            rcases hfp_end with hfp0 | hfpd
            · subst hfp0
              simpa using EndsDigit_append_left sgn hip_end
            · simpa using EndsDigit_append_left (sgn ++ ip) (by simpa using hfpd)
          · have := EndsDigit_append_left (sgn ++ ip ++ fp) hepd
            simpa [List.append_assoc] using this
        obtain ⟨p, d, hpd, hd⟩ := hdig
        refine ⟨p, d, ?_, hd⟩
        rw [hl1, hl2, hl3]
        rw [show sgn ++ (ip ++ (fp ++ (ep ++ l4))) = (sgn ++ (ip ++ (fp ++ ep))) ++ l4 from by
          simp [List.append_assoc]]
        rw [hpd]
        simp

/-- A successful number parse consumes a non-empty lexeme ending in a digit. -/
theorem parseNum_endsAt {l r : List Char} {v : JVal}
    (h : parseNum l = some (v, r)) : EndsAt l r := by
  unfold parseNum at h
  by_cases hm : headIs '-' l = true
  · rw [if_pos hm] at h
    obtain ⟨pre, d, hpd, hd⟩ := parseNumBody_endsAt h
    have hl : l = '-' :: l.drop 1 := by
      match l with
      | [] => simp [headIs] at hm
      | c :: t =>
        simp only [headIs, beq_iff_eq] at hm
        subst hm; rfl
    refine ⟨pre, d, ?_, Or.inr (Or.inr (Or.inr (Or.inr (Or.inr hd))))⟩
    rw [hl]
    exact hpd
  · rw [if_neg hm] at h
    obtain ⟨pre, d, hpd, hd⟩ := parseNumBody_endsAt h
    exact ⟨pre, d, by simpa using hpd, Or.inr (Or.inr (Or.inr (Or.inr (Or.inr hd))))⟩

/-- `expectLit` succeeds exactly when the literal is a prefix. -/
theorem expectLit_decomp {lit : List Char} {v x : JVal} {r rest : List Char}
    (h : expectLit lit v r = some (x, rest)) : r = lit ++ rest ∧ x = v := by
  unfold expectLit at h
  by_cases hp : lit.isPrefixOf r
  · rw [if_pos hp] at h
    simp only [Option.some.injEq, Prod.mk.injEq] at h
    obtain ⟨h1, h2⟩ := h
    obtain ⟨t, ht⟩ := List.isPrefixOf_iff_prefix.mp hp
    refine ⟨?_, h1.symm⟩
    rw [← ht] at h2 ⊢
    rw [List.drop_left] at h2
    rw [h2]
  · rw [if_neg hp] at h; simp at h

theorem hex4_decomp {r hs r3 : List Char} (h : hex4 r = some (hs, r3)) :
    r = hs ++ r3 := by
  unfold hex4 at h
  split at h
  next h1 h2 h3 h4 r' =>
    split at h
    · simp only [Option.some.injEq, Prod.mk.injEq] at h
      obtain ⟨ha, hb⟩ := h; subst ha hb; rfl
    · simp at h
  next => simp at h

/-- A successful string-body parse consumes up to and including the closing
quote. -/
theorem parseStrBody_decomp : ∀ (f : Nat) (l s r : List Char),
    parseStrBody f l = some (s, r) → ∃ pre, l = pre ++ '"' :: r := by
  intro f
  induction f with
  | zero => intro l s r h; simp [parseStrBody] at h
  | succ f ih =>
    intro l s r h
    match l with
    | [] => simp [parseStrBody] at h
    | c :: r0 =>
      unfold parseStrBody at h
      by_cases hq : c = '"'
      · rw [if_pos hq] at h
        simp only [Option.some.injEq, Prod.mk.injEq] at h
        obtain ⟨_, h2⟩ := h; subst h2 hq
        exact ⟨[], rfl⟩
      · rw [if_neg hq] at h
        by_cases hb : c = '\\'
        · rw [if_pos hb] at h
          split at h
          · simp at h
          next e r2 =>
            by_cases hu : e = 'u'
            · rw [if_pos hu] at h
              match hh : hex4 r2 with
              | none => simp only [hh] at h; exact Option.noConfusion h
              | some (hs, r3) =>
                simp only [hh] at h
                match hsb : parseStrBody f r3 with
                | none => simp only [hsb] at h; exact Option.noConfusion h
                | some (s', r4) =>
                  simp only [hsb, Option.some.injEq, Prod.mk.injEq] at h
                  obtain ⟨_, h2⟩ := h; subst h2
                  obtain ⟨pre, hpre⟩ := ih _ _ _ hsb
                  refine ⟨'\\' :: 'u' :: (hs ++ pre), ?_⟩
                  rw [hb, hu, hex4_decomp hh, hpre]
                  simp
            · rw [if_neg hu] at h
              by_cases hse : isSimpleEsc e = true
              · rw [if_pos hse] at h
                match hsb : parseStrBody f r2 with
                | none => simp only [hsb] at h; exact Option.noConfusion h
                | some (s', r3) =>
                  simp only [hsb, Option.some.injEq, Prod.mk.injEq] at h
                  obtain ⟨_, h2⟩ := h; subst h2
                  obtain ⟨pre, hpre⟩ := ih _ _ _ hsb
                  refine ⟨'\\' :: e :: pre, ?_⟩
                  rw [hb, hpre]
                  simp
              · rw [if_neg hse] at h; simp at h
        · rw [if_neg hb] at h
          by_cases hctl : c.toNat < 32
          · rw [if_pos hctl] at h; simp at h
          · rw [if_neg hctl] at h
            match hsb : parseStrBody f r0 with
            | none => simp only [hsb] at h; exact Option.noConfusion h
            | some (s', r2) =>
              simp only [hsb, Option.some.injEq, Prod.mk.injEq] at h
              obtain ⟨_, h2⟩ := h; subst h2
              obtain ⟨pre, hpre⟩ := ih _ _ _ hsb
              exact ⟨c :: pre, by rw [hpre]; simp⟩

/-- Consumed text of every parser ends in a JSON end character (proved for
all five mutual parsers by induction on the fuel). -/
theorem parse_endsAt : ∀ f : Nat,
    (∀ l v r, parseValue f l = some (v, r) → EndsAt l r) ∧
    (∀ l v r, parseObjBody f l = some (v, r) → EndsAt l r) ∧
    (∀ l acc v r, parseMembers f l acc = some (v, r) → EndsAt l r) ∧
    (∀ l v r, parseArrBody f l = some (v, r) → EndsAt l r) ∧
    (∀ l acc v r, parseElems f l acc = some (v, r) → EndsAt l r) := by
  intro f
  induction f with
  | zero =>
    refine ⟨?_, ?_, ?_, ?_, ?_⟩
    · intro l v r h; simp [parseValue] at h
    · intro l v r h; simp [parseObjBody] at h
    · intro l acc v r h; simp [parseMembers] at h
    · intro l v r h; simp [parseArrBody] at h
    · intro l acc v r h; simp [parseElems] at h
  | succ f ih =>
    obtain ⟨ihv, iho, ihm, iha, ihe⟩ := ih
    refine ⟨?_, ?_, ?_, ?_, ?_⟩
    -- parseValue
    · intro l v r h
      match l with
      | [] => simp [parseValue] at h
      | c :: r0 =>
        unfold parseValue at h
        by_cases h1 : c = '{'
        · rw [if_pos h1] at h
          exact EndsAt_shift [c] rfl (iho r0 v r h)
        · rw [if_neg h1] at h
          by_cases h2 : c = '['
          · rw [if_pos h2] at h
            exact EndsAt_shift [c] rfl (iha r0 v r h)
          · rw [if_neg h2] at h
            by_cases h3 : c = '"'
            · rw [if_pos h3] at h
              match hsb : parseStrBody f r0 with
              | none => simp only [hsb] at h; exact Option.noConfusion h
              | some (s, r2) =>
                simp only [hsb, Option.some.injEq, Prod.mk.injEq] at h
                obtain ⟨_, hr⟩ := h
                obtain ⟨pre, hpre⟩ := parseStrBody_decomp f r0 s r2 hsb
                refine ⟨c :: pre, '"', ?_, Or.inr (Or.inr (Or.inl rfl))⟩
                rw [hpre, hr]
                simp
            · rw [if_neg h3] at h
              by_cases h4 : c = 't'
              · rw [if_pos h4] at h
                obtain ⟨hr0, _⟩ := expectLit_decomp h
                refine ⟨['t', 'r', 'u'], 'e', ?_,
                  Or.inr (Or.inr (Or.inr (Or.inl rfl)))⟩
                rw [h4, hr0]; rfl
              · rw [if_neg h4] at h
                by_cases h5 : c = 'f'
                · rw [if_pos h5] at h
                  obtain ⟨hr0, _⟩ := expectLit_decomp h
                  refine ⟨['f', 'a', 'l', 's'], 'e', ?_,
                    Or.inr (Or.inr (Or.inr (Or.inl rfl)))⟩
                  rw [h5, hr0]; rfl
                · rw [if_neg h5] at h
                  by_cases h6 : c = 'n'
                  · rw [if_pos h6] at h
                    obtain ⟨hr0, _⟩ := expectLit_decomp h
                    refine ⟨['n', 'u', 'l'], 'l', ?_,
                      Or.inr (Or.inr (Or.inr (Or.inr (Or.inl rfl))))⟩
                    rw [h6, hr0]; rfl
                  · rw [if_neg h6] at h
                    by_cases h7 : c = '-' ∨ c.isDigit = true
                    · rw [if_pos h7] at h
                      exact parseNum_endsAt h
                    · rw [if_neg h7] at h
                      exact Option.noConfusion h
    -- parseObjBody
    · intro l v r h
      unfold parseObjBody at h
      match hsw : skipWs l with
      | [] => simp only [hsw] at h; exact Option.noConfusion h
      | c :: r0 =>
        simp only [hsw] at h
        by_cases hc : c = '}'
        · rw [if_pos hc] at h
          simp only [Option.some.injEq, Prod.mk.injEq] at h
          obtain ⟨_, hr⟩ := h; subst hr
          refine ⟨l.takeWhile isJsonWs, '}', ?_, Or.inl rfl⟩
          conv_lhs => rw [skipWs_decomp l]
          rw [hsw, hc]
        · rw [if_neg hc] at h
          refine EndsAt_shift (l.takeWhile isJsonWs) ?_ (ihm (c :: r0) [] v r h)
          conv_lhs => rw [skipWs_decomp l]
          rw [hsw]
    -- parseMembers
    · intro l acc v r h
      match l with
      | [] => simp [parseMembers] at h
      | c :: r0 =>
        unfold parseMembers at h
        by_cases hc : c = '"'
        · rw [if_pos hc] at h
          match hsb : parseStrBody f r0 with
          | none => simp only [hsb] at h; exact Option.noConfusion h
          | some (k, r2) =>
            simp only [hsb] at h
            obtain ⟨preK, hpreK⟩ := parseStrBody_decomp f r0 k r2 hsb
            match hsw2 : skipWs r2 with
            | [] => simp only [hsw2] at h; exact Option.noConfusion h
            | c2 :: r3 =>
              simp only [hsw2] at h
              by_cases hc2 : c2 = ':'
              · rw [if_pos hc2] at h
                match hv : parseValue f (skipWs r3) with
                | none => simp only [hv] at h; exact Option.noConfusion h
                | some (v4, r4) =>
                  simp only [hv] at h
                  obtain ⟨a4, ha4⟩ := (ihv _ _ _ hv).to_append
                  have hr2' : r2 = r2.takeWhile isJsonWs ++ (c2 :: r3) := by
                    conv_lhs => rw [skipWs_decomp r2]
                    rw [hsw2]
                  have hr3' : r3 = r3.takeWhile isJsonWs ++ (a4 ++ r4) := by
                    conv_lhs => rw [skipWs_decomp r3]
                    rw [ha4]
                  have hlr4 : c :: r0 = (c :: (preK ++ ['"'] ++
                      (r2.takeWhile isJsonWs ++ [c2] ++
                        (r3.takeWhile isJsonWs ++ a4)))) ++ r4 := by
                    conv_lhs => rw [hpreK, hr2', hr3']
                    simp
                  match hsw4 : skipWs r4 with
                  | [] => simp only [hsw4] at h; exact Option.noConfusion h
                  | c4 :: r5 =>
                    simp only [hsw4] at h
                    have hr4d : r4 = r4.takeWhile isJsonWs ++ (c4 :: r5) := by
                      conv_lhs => rw [skipWs_decomp r4]
                      rw [hsw4]
                    by_cases hc4 : c4 = ','
                    · rw [if_pos hc4] at h
                      have hrec := ihm _ _ _ _ h
                      have h5 : EndsAt r5 r :=
                        EndsAt_shift (r5.takeWhile isJsonWs) (skipWs_decomp r5) hrec
                      have hshift4 : r4 = (r4.takeWhile isJsonWs ++ [c4]) ++ r5 := by
                        conv_lhs => rw [hr4d]
                        simp
                      have h4' : EndsAt r4 r := EndsAt_shift _ hshift4 h5
                      exact EndsAt_shift _ hlr4 h4'
                    · rw [if_neg hc4] at h
                      by_cases hc4' : c4 = '}'
                      · rw [if_pos hc4'] at h
                        simp only [Option.some.injEq, Prod.mk.injEq] at h
                        obtain ⟨_, hr⟩ := h
                        have h4' : EndsAt r4 r := by
                          refine ⟨r4.takeWhile isJsonWs, '}', ?_, Or.inl rfl⟩
                          conv_lhs => rw [hr4d]
                          rw [hc4', hr]
                        exact EndsAt_shift _ hlr4 h4'
                      · rw [if_neg hc4'] at h
                        exact Option.noConfusion h
              · rw [if_neg hc2] at h
                exact Option.noConfusion h
        · rw [if_neg hc] at h
          exact Option.noConfusion h
    -- parseArrBody
    · intro l v r h
      unfold parseArrBody at h
      match hsw : skipWs l with
      | [] => simp only [hsw] at h; exact Option.noConfusion h
      | c :: r0 =>
        simp only [hsw] at h
        by_cases hc : c = ']'
        · rw [if_pos hc] at h
          simp only [Option.some.injEq, Prod.mk.injEq] at h
          obtain ⟨_, hr⟩ := h; subst hr
          refine ⟨l.takeWhile isJsonWs, ']', ?_, Or.inr (Or.inl rfl)⟩
          conv_lhs => rw [skipWs_decomp l]
          rw [hsw, hc]
        · rw [if_neg hc] at h
          refine EndsAt_shift (l.takeWhile isJsonWs) ?_ (ihe (c :: r0) [] v r h)
          conv_lhs => rw [skipWs_decomp l]
          rw [hsw]
    -- parseElems
    · intro l acc v r h
      unfold parseElems at h
      match hv : parseValue f l with
      | none => simp only [hv] at h; exact Option.noConfusion h
      | some (v0, r0) =>
        simp only [hv] at h
        obtain ⟨a0, ha0⟩ := (ihv _ _ _ hv).to_append
        match hsw : skipWs r0 with
        | [] => simp only [hsw] at h; exact Option.noConfusion h
        | c2 :: r2 =>
          simp only [hsw] at h
          have hr0d : r0 = r0.takeWhile isJsonWs ++ (c2 :: r2) := by
            conv_lhs => rw [skipWs_decomp r0]
            rw [hsw]
          by_cases hc2 : c2 = ','
          · rw [if_pos hc2] at h
            have hrec := ihe _ _ _ _ h
            have h2 : EndsAt r2 r :=
              EndsAt_shift (r2.takeWhile isJsonWs) (skipWs_decomp r2) hrec
            have hshift0 : r0 = (r0.takeWhile isJsonWs ++ [c2]) ++ r2 := by
              conv_lhs => rw [hr0d]
              simp
            have h0 : EndsAt r0 r := EndsAt_shift _ hshift0 h2
            exact EndsAt_shift a0 ha0 h0
          · rw [if_neg hc2] at h
            by_cases hc2' : c2 = ']'
            · rw [if_pos hc2'] at h
              simp only [Option.some.injEq, Prod.mk.injEq] at h
              obtain ⟨_, hr⟩ := h
              have h0 : EndsAt r0 r := by
                refine ⟨r0.takeWhile isJsonWs, ']', ?_, Or.inr (Or.inl rfl)⟩
                conv_lhs => rw [hr0d]
                rw [hc2', hr]
              exact EndsAt_shift a0 ha0 h0
            · rw [if_neg hc2'] at h
              exact Option.noConfusion h

theorem isJsonWs_eq_false_of_pyWs {c : Char} (h : isPyWs c = false) :
    isJsonWs c = false := by
  by_cases hj : isJsonWs c = true
  · rw [isPyWs_of_isJsonWs hj] at h; exact absurd h (by simp)
  · simpa using hj

/-- A text whose two ends are not JSON whitespace is fixed by `jsonStrip`. -/
theorem jsonStrip_eq_self {t : List Char} (h : t.dropWhile isJsonWs = t)
    (h2 : t.reverse.dropWhile isJsonWs = t.reverse) : jsonStrip t = t := by
  unfold jsonStrip
  rw [h, h2, List.reverse_reverse]

/-- Everything a successful strict parse gives: the value parse consumes the
JSON-stripped text exactly, `str.strip()` and the JSON strip agree, the
stripped text is not fenced, and parsing the stripped text again gives the
same value. -/
theorem json_loads_success {l : List Char} {v : JVal} (h : json_loads l = some v) :
    parseValue FUEL (jsonStrip l) = some (v, []) ∧
    pyStrip l = jsonStrip l ∧
    startsFence (jsonStrip l) = false ∧
    json_loads (jsonStrip l) = some v := by
  have hp : parseValue FUEL (jsonStrip l) = some (v, []) := by
    unfold json_loads at h
    match hpv : parseValue FUEL (jsonStrip l) with
    | none => simp only [hpv] at h; exact Option.noConfusion h
    | some (v', r') =>
      simp only [hpv] at h
      by_cases hr : r'.isEmpty = true
      · rw [if_pos hr] at h
        simp only [Option.some.injEq] at h
        rw [List.isEmpty_iff] at hr
        rw [h, hr]
      · rw [if_neg hr] at h; exact Option.noConfusion h
  obtain ⟨c, r', ht, hc⟩ := parseValue_start hp
  obtain ⟨pre, d, htd, hd⟩ := (parse_endsAt FUEL).1 _ _ _ hp
  have hcpy : isPyWs c = false := jsonStartChar_not_pyWs hc
  have hdpy : isPyWs d = false := jsonEndChar_not_pyWs hd
  obtain ⟨w, hw, hwall⟩ := rstrip_decomp isJsonWs (skipWs l)
  have hwall' : ∀ x ∈ w, isPyWs x = true := fun x hx => isPyWs_of_isJsonWs (hwall x hx)
  have htt : jsonStrip l = ((skipWs l).reverse.dropWhile isJsonWs).reverse := rfl
  have hm : skipWs l = jsonStrip l ++ w := by rw [htt]; exact hw
  have hlstrip : pyLstrip l = skipWs l := by
    unfold pyLstrip skipWs
    refine dropWhile_stronger (fun x hx => isPyWs_of_isJsonWs hx) l ?_
    intro x rx hx
    have : jsonStrip l ++ w = x :: rx := by
      rw [← hm]; exact hx
    rw [ht] at this
    have hx' : c = x := by
      have := congrArg (fun ll => ll.head?) this
      simpa using this
    rw [← hx']; exact hcpy
  have hstrip : pyStrip l = jsonStrip l := by
    unfold pyStrip pyRstrip
    rw [hlstrip, hm, htd]
    rw [show pre ++ [d] ++ w = pre ++ d :: w from by simp]
    exact rstrip_eval pre hdpy hwall'
  have hts : jsonStrip (jsonStrip l) = jsonStrip l := by
    refine jsonStrip_eq_self ?_ ?_
    · rw [ht]
      exact dropWhile_cons_of_neg _ (isJsonWs_eq_false_of_pyWs hcpy)
    · rw [htd]
      rw [show (pre ++ [d]).reverse = d :: pre.reverse from by simp]
      rw [dropWhile_cons_of_neg _ (isJsonWs_eq_false_of_pyWs hdpy)]
  have hfence : startsFence (jsonStrip l) = false := by
    rw [ht]
    have hbq := jsonStartChar_ne_bq hc
    match r' with
    | [] => rfl
    | [x] => rfl
    | x :: y :: rest => simp [startsFence, hbq]
  refine ⟨hp, hstrip, hfence, ?_⟩
  unfold json_loads
  rw [hts, hp]
  rfl

/-- Strict-parse success propagates through the tolerant decoder. -/
theorem parse_receipt_json_of_loads {s : List Char} {v : JVal}
    (h : json_loads s = some v) : parse_receipt_json s = some v := by
  obtain ⟨_, hstrip, hfence, hloads⟩ := json_loads_success h
  unfold parse_receipt_json fence_part
  rw [hstrip, hfence]
  simp only [Bool.false_eq_true, if_false]
  rw [hloads]

/-- A text whose two ends are not Python whitespace is fixed by `strip()`. -/
theorem pyStrip_eq_self {t : List Char} (h : t.dropWhile isPyWs = t)
    (h2 : t.reverse.dropWhile isPyWs = t.reverse) : pyStrip t = t := by
  unfold pyStrip pyLstrip pyRstrip
  rw [h, h2, List.reverse_reverse]

/-- claim C8: Decode identity — for every input string that is well-formed
JSON (strict `json_loads` succeeds), the tolerant decoder
`parse_receipt_json` returns the same structure as the direct strict parse. -/
theorem claim_C8_decode_identity : ∀ (s : List Char) (v : JVal),
    json_loads s = some v → parse_receipt_json s = some v :=
  fun _ _ h => parse_receipt_json_of_loads h

/-- Witness for C8 at a concrete well-formed JSON input with surrounding
whitespace. -/
theorem claim_C8_witness :
    json_loads " \x7b\"a\": [1, true]\x7d ".data =
      some (JVal.obj [("a".data, JVal.arr [JVal.num ['1'], JVal.bool true])]) ∧
    parse_receipt_json " \x7b\"a\": [1, true]\x7d ".data =
      some (JVal.obj [("a".data, JVal.arr [JVal.num ['1'], JVal.bool true])]) :=
  ⟨by rfl, claim_C8_decode_identity _ _ (by rfl)⟩

/-- claim C7: Fence stripping — for every JSON object wrapped in a fenced
code block (fence marker line with an optional language tag, then the
content, then a trailing fence marker), the decoder strips the fence and
returns the same object as decoding the unwrapped content. -/
theorem claim_C7_fence_strip : ∀ (tag content : List Char) (kvs : List (List Char × JVal)),
    (∀ c ∈ tag, c ≠ '\n') →
    json_loads content = some (JVal.obj kvs) →
    parse_receipt_json
        (bq :: bq :: bq :: (tag ++ '\n' :: (content ++ [bq, bq, bq]))) =
      some (JVal.obj kvs) ∧
    parse_receipt_json content = some (JVal.obj kvs) := by
  intro tag content kvs htag h
  refine ⟨?_, parse_receipt_json_of_loads h⟩
  obtain ⟨_, hstrip, _, hloads⟩ := json_loads_success h
  set W := bq :: bq :: bq :: (tag ++ '\n' :: (content ++ [bq, bq, bq])) with hW
  have hWsplit : W = (bq :: bq :: bq :: (tag ++ '\n' :: (content ++ [bq, bq]))) ++ [bq] := by
    rw [hW]
    simp
  have hWstrip : pyStrip W = W := by
    refine pyStrip_eq_self ?_ ?_
    · rw [hW]
      exact dropWhile_cons_of_neg _ (by decide)
    · rw [hWsplit, List.reverse_append]
      exact dropWhile_cons_of_neg _ (by decide)
  have hWfence : startsFence W = true := by
    rw [hW]; simp [startsFence]
  have hWnl : W.contains '\n' = true := by
    refine List.elem_eq_true_of_mem ?_
    rw [hW]
    simp
  have hWdrop : W.dropWhile (fun c => !(c == '\n')) = '\n' :: (content ++ [bq, bq, bq]) := by
    rw [hW]
    rw [show bq :: bq :: bq :: (tag ++ '\n' :: (content ++ [bq, bq, bq])) =
      (bq :: bq :: bq :: tag) ++ '\n' :: (content ++ [bq, bq, bq]) from by simp]
    rw [dropWhile_append_all _ ?_]
    · exact dropWhile_cons_of_neg _ (by simp)
    · intro c hc
      simp only [List.mem_cons] at hc
      rcases hc with rfl | rfl | rfl | hc
      · decide
      · decide
      · decide
      · simp [htag c hc]
  have hEfence : endsFence (content ++ [bq, bq, bq]) = true := by
    unfold endsFence
    rw [List.reverse_append]
    simp [startsFence]
  have htake : (content ++ [bq, bq, bq]).take ((content ++ [bq, bq, bq]).length - 3) = content := by
    rw [List.length_append]
    simp only [List.length_cons, List.length_nil]
    rw [show content.length + 3 - 3 = content.length from by omega]
    exact List.take_left content _
  unfold parse_receipt_json fence_part
  rw [hWstrip, hWfence]
  simp only [if_true]
  rw [hWnl]
  simp only [if_true]
  rw [hWdrop]
  simp only [List.drop_succ_cons, List.drop_zero]
  rw [hEfence]
  simp only [if_true]
  rw [htake, hstrip, hloads]

/-- Witness for C7 at a concrete fenced input with the `json` language tag. -/
theorem claim_C7_witness :
    parse_receipt_json "\x60\x60\x60json\n\x7b\"a\": 1\x7d\x60\x60\x60".data =
      some (JVal.obj [("a".data, JVal.num ['1'])]) ∧
    parse_receipt_json "\x7b\"a\": 1\x7d".data =
      some (JVal.obj [("a".data, JVal.num ['1'])]) := by
  have h := claim_C7_fence_strip "json".data "\x7b\"a\": 1\x7d".data
    [("a".data, JVal.num ['1'])] (by decide) (by rfl)
  exact ⟨h.1, h.2⟩

/-! ## Lemmas for the repair heuristic (claim C6) -/

theorem splitlines_cons (c : Char) (l : List Char) (h1 : c ≠ '\r') (h2 : c ≠ '\n') :
    splitlines (c :: l) =
      match splitlines l with
      | [] => [[c]]
      | line :: rest => (c :: line) :: rest := by
  rw [splitlines]
  · intro r hr _; exact h1 hr
  · intro hr; exact h1 hr
  · intro hn; exact h2 hn

theorem splitlines_ne_nil : ∀ {t : List Char}, t ≠ [] → splitlines t ≠ [] := by
  intro t
  induction t using splitlines.induct with
  | case1 => intro h; exact absurd rfl h
  | case2 r ih => intro _; rw [splitlines]; simp
  | case3 r hne ih =>
    intro _
    rw [splitlines]
    · simp
    · intro r1 hr1; exact hne r1 hr1
  | case4 r ih => intro _; rw [splitlines]; simp
  | case5 c r hne hc1 hc2 hsp ih =>
    intro _
    rw [splitlines_cons c r (fun h => hc1 h) (fun h => hc2 h), hsp]
    simp
  | case6 c r hne hc1 hc2 line rest hsp ih =>
    intro _
    rw [splitlines_cons c r (fun h => hc1 h) (fun h => hc2 h), hsp]
    simp

theorem splitlines_first {c : Char} (t' : List Char) (h1 : c ≠ '\r') (h2 : c ≠ '\n') :
    ∃ ln rest, splitlines (c :: t') = (c :: ln) :: rest := by
  rw [splitlines_cons c t' h1 h2]
  cases hs : splitlines t' with
  | nil => exact ⟨[], [], rfl⟩
  | cons line rest => exact ⟨line, rest, rfl⟩

theorem splitlines_last : ∀ (t : List Char) (d : Char), t.getLast? = some d →
    d ≠ '\r' → d ≠ '\n' → ∃ ls m, splitlines t = ls ++ [m ++ [d]] := by
  intro t
  induction t using splitlines.induct with
  | case1 => intro d hd _ _; simp at hd
  | case2 r ih =>
    intro d hd hd1 hd2
    match r with
    | [] =>
      simp [List.getLast?] at hd
      exact absurd hd.symm hd2
    | x :: r' =>
      rw [List.getLast?_cons_cons, List.getLast?_cons_cons] at hd
      obtain ⟨ls, m, hm⟩ := ih d hd hd1 hd2
      refine ⟨[] :: ls, m, ?_⟩
      rw [splitlines, hm]
      rfl
  | case3 r hne ih =>
    intro d hd hd1 hd2
    match r with
    | [] =>
      simp [List.getLast?] at hd
      exact absurd hd.symm hd1
    | x :: r' =>
      rw [List.getLast?_cons_cons] at hd
      obtain ⟨ls, m, hm⟩ := ih d hd hd1 hd2
      refine ⟨[] :: ls, m, ?_⟩
      rw [splitlines]
      · rw [hm]; rfl
      · intro r1 hr1; exact hne r1 hr1
  | case4 r ih =>
    intro d hd hd1 hd2
    match r with
    | [] =>
      simp [List.getLast?] at hd
      exact absurd hd.symm hd2
    | x :: r' =>
      rw [List.getLast?_cons_cons] at hd
      obtain ⟨ls, m, hm⟩ := ih d hd hd1 hd2
      refine ⟨[] :: ls, m, ?_⟩
      rw [splitlines, hm]
      rfl
  | case5 c r hne hc1 hc2 hsp ih =>
    intro d hd hd1 hd2
    match r with
    | [] =>
      simp [List.getLast?] at hd
      rw [splitlines_cons c [] (fun h => hc1 h) (fun h => hc2 h), hsp, hd]
      exact ⟨[], [], rfl⟩
    | x :: r' =>
      exact absurd hsp (splitlines_ne_nil (by simp))
  | case6 c r hne hc1 hc2 line rest hsp ih =>
    intro d hd hd1 hd2
    match r with
    | [] => rw [splitlines] at hsp; exact List.noConfusion hsp
    | x :: r' =>
      rw [List.getLast?_cons_cons] at hd
      obtain ⟨ls, m, hm⟩ := ih d hd hd1 hd2
      rw [splitlines_cons c (x :: r') (fun h => hc1 h) (fun h => hc2 h), hsp]
      rw [hsp] at hm
      match ls, hm with
      | [], hm =>
        simp only [List.nil_append] at hm
        have hline : line = m ++ [d] := by
          have := congrArg (fun ll => List.head? ll) hm
          simpa using this
        have hrest : rest = [] := by
          have := congrArg (fun ll => List.tail ll) hm
          simpa using this
        refine ⟨[], c :: m, ?_⟩
        rw [hline, hrest]
        simp
      | l1 :: ls', hm =>
        simp only [List.cons_append] at hm
        have hline : line = l1 := by
          have := congrArg (fun ll => List.head? ll) hm
          simpa using this
        have hrest : rest = ls' ++ [m ++ [d]] := by
          have := congrArg (fun ll => List.tail ll) hm
          simpa using this
        refine ⟨(c :: l1) :: ls', m, ?_⟩
        rw [hline, hrest]
        rfl

theorem length_dropWhile_le' (p : Char → Bool) (l : List Char) :
    (l.dropWhile p).length ≤ l.length :=
  (List.dropWhile_sublist (p := p) (l := l)).length_le

theorem dropWhile_fix_head {p : Char → Bool} {c : Char} {l : List Char}
    (h : (c :: l).dropWhile p = c :: l) : p c = false := by
  by_cases hc : p c = true
  · exfalso
    rw [List.dropWhile_cons, if_pos hc] at h
    have hlen := congrArg List.length h
    have := length_dropWhile_le' p l
    simp only [List.length_cons] at hlen
    omega
  · simpa using hc

theorem rstrip_length_le (p : Char → Bool) (l : List Char) :
    ((l.reverse.dropWhile p).reverse).length ≤ l.length := by
  rw [List.length_reverse]
  calc (l.reverse.dropWhile p).length ≤ l.reverse.length := length_dropWhile_le' _ _
    _ = l.length := List.length_reverse l

/-- A `strip()` fixed point is both an `lstrip()` and an `rstrip()` fixed
point. -/
theorem pyStrip_fix {t : List Char} (h : pyStrip t = t) :
    pyLstrip t = t ∧ pyRstrip t = t := by
  have hL : pyLstrip t = t := by
    obtain ⟨w, hw, _⟩ := rstrip_decomp isPyWs (pyLstrip t)
    have hw' : pyLstrip t = t ++ w := by
      rw [hw]
      have : ((pyLstrip t).reverse.dropWhile isPyWs).reverse = t := h
      rw [this]
    have h1 : (pyLstrip t).length ≤ t.length := length_dropWhile_le' _ _
    have h2 : (t ++ w).length = t.length + w.length := List.length_append t w
    have hwnil : w = [] := by
      rw [hw'] at h1
      rw [h2] at h1
      have : w.length = 0 := by omega
      exact List.eq_nil_of_length_eq_zero this
    rw [hw', hwnil, List.append_nil]
  refine ⟨hL, ?_⟩
  have : pyRstrip (pyLstrip t) = t := h
  rw [hL] at this
  exact this

theorem pyStrip_head {c : Char} {t' : List Char} (h : pyStrip (c :: t') = c :: t') :
    isPyWs c = false :=
  dropWhile_fix_head (pyStrip_fix h).1

theorem pyStrip_last {t : List Char} {d : Char} (h : pyStrip t = t)
    (hd : t.getLast? = some d) : isPyWs d = false := by
  have hR : pyRstrip t = t := (pyStrip_fix h).2
  have hrev : t.reverse.dropWhile isPyWs = t.reverse := by
    have := congrArg List.reverse hR
    rwa [pyRstrip, List.reverse_reverse] at this
  have hhead : t.reverse.head? = some d := by
    rw [List.head?_reverse]
    exact hd
  match hr : t.reverse with
  | [] => rw [hr] at hhead; exact Option.noConfusion hhead
  | x :: rest =>
    rw [hr] at hhead hrev
    simp only [List.head?_cons, Option.some.injEq] at hhead
    rw [← hhead]
    exact dropWhile_fix_head hrev

/-- `dropWhile` walks through a prefix up to a non-matching separator. -/
theorem dropWhile_append_keep {p : Char → Bool} {d : Char} (q l' : List Char)
    (hd : p d = false) :
    (q ++ d :: l').dropWhile p = q.dropWhile p ++ d :: l' := by
  induction q with
  | nil => simp [dropWhile_cons_of_neg _ hd]
  | cons x xs ih =>
    by_cases hx : p x = true
    · simp only [List.cons_append, List.dropWhile_cons, hx, if_true, ih]
    · have hx' : p x = false := by simpa using hx
      simp [List.dropWhile_cons, hx']

/-- Stripping preserves a leading non-whitespace character. -/
theorem pyStrip_cons_head {c : Char} (ln : List Char) (hc : isPyWs c = false) :
    ∃ m, pyStrip (c :: ln) = c :: m := by
  unfold pyStrip
  rw [show pyLstrip (c :: ln) = c :: ln from dropWhile_cons_of_neg _ hc]
  obtain ⟨w, hw, hwall⟩ := rstrip_decomp isPyWs (c :: ln)
  match hR : ((c :: ln).reverse.dropWhile isPyWs).reverse with
  | [] =>
    exfalso
    rw [hR] at hw
    simp only [List.nil_append] at hw
    have : isPyWs c = true := hwall c (by rw [← hw]; simp)
    rw [this] at hc; exact Bool.noConfusion hc
  | x :: xs =>
    rw [hR] at hw
    have hx : x = c := by
      have := congrArg (fun ll => List.head? ll) hw
      simpa using this.symm
    exact ⟨xs, by rw [pyRstrip, hR, hx]⟩

/-- Stripping preserves a trailing non-whitespace character. -/
theorem pyStrip_concat_last {d : Char} (q : List Char) (hd : isPyWs d = false) :
    pyStrip (q ++ [d]) = q.dropWhile isPyWs ++ [d] := by
  unfold pyStrip
  rw [show pyLstrip (q ++ [d]) = q.dropWhile isPyWs ++ [d] from
    dropWhile_append_keep q [] hd]
  unfold pyRstrip
  rw [List.reverse_append]
  simp only [List.reverse_cons, List.reverse_nil, List.nil_append, List.singleton_append]
  rw [dropWhile_cons_of_neg _ hd]
  simp

theorem getLast?_concat' (q : List Char) (d : Char) : (q ++ [d]).getLast? = some d := by
  simp [List.getLast?_append]

theorem getLastD_cons_cons (x f : List Char) (fs : List (List Char)) (e : List Char) :
    (x :: f :: fs).getLastD e = (f :: fs).getLastD e := by
  simp [List.getLastD_cons, List.getLastD_eq_getLast?]

theorem filter_nonblank_concat {ls : List (List Char)} {x : List Char}
    (hx : (!(pyStrip x).isEmpty) = true) :
    (ls ++ [x]).filter (fun ln => !(pyStrip ln).isEmpty) =
      ls.filter (fun ln => !(pyStrip ln).isEmpty) ++ [x] := by
  rw [List.filter_append]
  congr 1
  rw [List.filter_cons, if_pos hx]
  rfl

/-- Modelled from the spec's words for the repair heuristic (claim C6 /
spec §4.1): split into non-empty lines; prepend `{` to the first line if it
does not start with `{`; append `}` to the last line if it does not end
with `}`; rejoin the lines with single spaces.  The only difference from
`repair_code` is that the two brace tests look at the line itself where the
code tests the stripped line; `repair_eq` shows both agree whenever the
decoder's text is trimmed. -/
def repair_spec (json_str : List Char) : Option (List Char) :=
  let lines := (splitlines json_str).filter (fun ln => !(pyStrip ln).isEmpty)
  match lines with
  | [] => none
  | l0 :: rest =>
    let lines1 :=
      if headIs '{' l0 then l0 :: rest
      else ('{' :: l0) :: rest
    let lines2 :=
      if (lines1.getLastD []).getLast? = some '}' then lines1
      else updLast (fun ln => ln ++ [ '}']) lines1
    some (List.intercalate [ ' '] lines2)

/-- On trimmed text (every reachable repair input except the degenerate
fence forms, which the claim's wording already calls "trimmed") the code's
repair equals the claim's description of it. -/
theorem repair_eq {t : List Char} (ht : pyStrip t = t) :
    repair_code t = repair_spec t := by
  match t with
  | [] => rfl
  | c :: t' =>
    have hcpy : isPyWs c = false := pyStrip_head ht
    have hcr : c ≠ '\r' := by intro h; rw [h] at hcpy; exact absurd hcpy (by decide)
    have hcn : c ≠ '\n' := by intro h; rw [h] at hcpy; exact absurd hcpy (by decide)
    have hne : (c :: t') ≠ [] := by simp
    have hd0 : (c :: t').getLast? = some ((c :: t').getLast hne) :=
      List.getLast?_eq_getLast _ hne
    have hdpy : isPyWs ((c :: t').getLast hne) = false := pyStrip_last ht hd0
    have hdr : (c :: t').getLast hne ≠ '\r' := by
      intro h; rw [h] at hdpy; exact absurd hdpy (by decide)
    have hdn : (c :: t').getLast hne ≠ '\n' := by
      intro h; rw [h] at hdpy; exact absurd hdpy (by decide)
    obtain ⟨ls, m, hm⟩ := splitlines_last (c :: t') _ hd0 hdr hdn
    obtain ⟨ln, rest0, hf⟩ := splitlines_first t' hcr hcn
    have hbl_last : (!(pyStrip (m ++ [(c :: t').getLast hne])).isEmpty) = true := by
      rw [pyStrip_concat_last m hdpy]
      simp
    have hbl_first : (!(pyStrip (c :: ln)).isEmpty) = true := by
      obtain ⟨mid, hmid⟩ := pyStrip_cons_head ln hcpy
      rw [hmid]
      simp
    have hlines : (splitlines (c :: t')).filter (fun l0 => !(pyStrip l0).isEmpty) =
        (c :: ln) :: rest0.filter (fun l0 => !(pyStrip l0).isEmpty) := by
      rw [hf, List.filter_cons, if_pos hbl_first]
    have hcat : (c :: ln) :: rest0.filter (fun l0 => !(pyStrip l0).isEmpty) =
        (ls.filter (fun l0 => !(pyStrip l0).isEmpty)) ++ [m ++ [(c :: t').getLast hne]] := by
      rw [← hlines, hm, filter_nonblank_concat hbl_last]
    have hlast : ((c :: ln) :: rest0.filter (fun l0 => !(pyStrip l0).isEmpty)).getLastD [] =
        m ++ [(c :: t').getLast hne] := by
      rw [hcat, List.getLastD_concat]
    have hcond1 : headIs '{' (pyStrip (c :: ln)) = headIs '{' (c :: ln) := by
      obtain ⟨mid, hmid⟩ := pyStrip_cons_head ln hcpy
      rw [hmid]
      rfl
    simp only [repair_code, repair_spec, hlines]
    rw [hcond1]
    by_cases hc1 : headIs '{' (c :: ln) = true
    · rw [if_pos hc1]
      have hql : ∃ q, (((c :: ln) :: rest0.filter (fun l0 =>
          !(pyStrip l0).isEmpty))).getLastD [] = q ++ [(c :: t').getLast hne] :=
        ⟨m, hlast⟩
      obtain ⟨q, hq⟩ := hql
      rw [hq, pyStrip_concat_last q hdpy, getLast?_concat', getLast?_concat']
    · rw [if_neg hc1]
      have hql : ∃ q, (('{' :: (c :: ln)) :: rest0.filter (fun l0 =>
          !(pyStrip l0).isEmpty)).getLastD [] = q ++ [(c :: t').getLast hne] := by
        match hF : rest0.filter (fun l0 => !(pyStrip l0).isEmpty) with
        | [] =>
          rw [hF] at hlast
          refine ⟨'{' :: m, ?_⟩
          simp only [List.getLastD]
          have : c :: ln = m ++ [(c :: t').getLast hne] := by
            simpa [List.getLastD] using hlast
          rw [this]
          rfl
        | f :: fs =>
          rw [hF] at hlast
          refine ⟨m, ?_⟩
          rw [getLastD_cons_cons]
          rw [getLastD_cons_cons] at hlast
          exact hlast
      obtain ⟨q, hq⟩ := hql
      rw [hq, pyStrip_concat_last q hdpy, getLast?_concat', getLast?_concat']

/-- claim C6: Repair heuristic — for every input whose strict JSON parse
fails, the decoder splits the (fence-stripped, trimmed) text into non-empty
lines, prepends `{` to the first line if it does not start with `{`,
appends `}` to the last line if it does not end with `}`, rejoins with
single spaces and retries the parse exactly once (`repair_spec`, written
from the claim's words; the `bind` is the single retry); and the concrete
example `"ReceiptID": "1", "Items": []}` decodes to the intended object. -/
theorem claim_C6_repair : (∀ (s t : List Char),
    t = fence_part (pyStrip s) → pyStrip t = t → json_loads t = none →
    parse_receipt_json s = (repair_spec t).bind json_loads)
  ∧ parse_receipt_json "\"ReceiptID\": \"1\", \"Items\": []\x7d".data =
      some (JVal.obj [("ReceiptID".data, JVal.str "1".data), ("Items".data, JVal.arr [])]) := by
  constructor
  · intro s t hteq htrim hfail
    unfold parse_receipt_json
    rw [← hteq]
    simp only [hfail]
    rw [repair_eq htrim]
  · rfl

/-- Witness for C6 at the claim's concrete repair example. -/
theorem claim_C6_witness :
    parse_receipt_json "\"ReceiptID\": \"1\", \"Items\": []\x7d".data =
      (repair_spec "\"ReceiptID\": \"1\", \"Items\": []\x7d".data).bind json_loads :=
  claim_C6_repair.1 _ _ (by rfl) (by rfl) (by rfl)

/-! ## Claims about the storage layer and the extractors -/

theorem jget_obj_ne_nil {kvs : List (List Char × JVal)} {key : List Char} {v : JVal}
    (h : jget (JVal.obj kvs) key = some v) : kvs ≠ [] := by
  intro hk
  subst hk
  simp [jget] at h

/-- claim C1: Store/exists round trip for the deduplication gate — for
every user and every receipt record whose `ReceiptID` field holds a
non-empty string, `receipt_exists` is false on the fresh ledger, the store
succeeds, and afterwards `receipt_exists` for the same user and identifier
is true. -/
theorem claim_C1_store_exists_round_trip :
    ∀ (user : List Char) (kvs : List (List Char × JVal)) (rid : List Char),
    jget (JVal.obj kvs) "ReceiptID".data = some (JVal.str rid) → rid ≠ [] →
    receipt_exists freshState user (JVal.str rid) = false ∧
    ∃ st', store_receipt freshState user (JVal.obj kvs) = some st' ∧
      receipt_exists st' user (JVal.str rid) = true := by
  intro user kvs rid hget hrid
  have htruthy : jTruthy (JVal.obj kvs) = true := by
    have := jget_obj_ne_nil hget
    simp [jTruthy, this]
  refine ⟨?_, ?_⟩
  · unfold receipt_exists
    simp [row_exists, freshState]
  · refine ⟨{ receipts := [⟨user, JVal.str rid⟩], tickets := [] }, ?_, ?_⟩
    · unfold store_receipt
      rw [htruthy]
      simp only [Bool.not_true, Bool.false_eq_true, if_false]
      rw [hget]
      rfl
    · unfold receipt_exists
      have hjt : jTruthy (JVal.str rid) = true := by simp [jTruthy, hrid]
      rw [hjt]
      simp only [Bool.not_true, Bool.false_eq_true, if_false]
      unfold row_exists row_matches
      simp [pyStr]

/-- Witness for C1 at the spec's end-to-end identifier, extracted from the
spec's fenced raw-text example by the decoder itself. -/
theorem claim_C1_witness :
    receipt_exists freshState "U".data (JVal.str "202401011200".data) = false ∧
    ∃ st', store_receipt freshState "U".data
        (JVal.obj [("ReceiptID".data, JVal.str "202401011200".data)]) = some st' ∧
      receipt_exists st' "U".data (JVal.str "202401011200".data) = true :=
  claim_C1_store_exists_round_trip "U".data
    [("ReceiptID".data, JVal.str "202401011200".data)] "202401011200".data
    (by rfl) (by decide)

/-- claim C2: The Hotel/Attraction persistence wrappers are silent no-ops
and their existence checks always return false, because `SheetsStorage`
defines no `store_hotel`, `hotel_exists`, `store_attraction` or
`attraction_exists` method and the wrappers swallow the `AttributeError`. -/
theorem claim_C2_hotel_attraction_noop :
    (hasStorageMethod "store_hotel" = false ∧
     hasStorageMethod "hotel_exists" = false ∧
     hasStorageMethod "store_attraction" = false ∧
     hasStorageMethod "attraction_exists" = false) ∧
    (∀ (st : SheetsState) (u : List Char) (hd rd : JVal),
        add_hotel st u hd rd = st) ∧
    (∀ (st : SheetsState) (u : List Char) (ad : JVal),
        add_attraction st u ad = st) ∧
    (∀ (st : SheetsState) (u : List Char) (hid : Option JVal),
        check_if_hotel_exists st u hid = false) ∧
    (∀ (st : SheetsState) (u : List Char) (aid : Option JVal),
        check_if_attraction_exists st u aid = false) := by
  refine ⟨⟨by decide, by decide, by decide, by decide⟩, ?_, ?_, ?_, ?_⟩
  · intro st u hd rd; rfl
  · intro st u ad; rfl
  · intro st u hid
    unfold check_if_hotel_exists
    match hid with
    | none => rfl
    | some v =>
      by_cases hv : jTruthy v = true
      · simp [hv, sheets_hotel_exists, hasStorageMethod, sheetsStorageMethodNames]
      · simp [hv]
  · intro st u aid
    unfold check_if_attraction_exists
    match aid with
    | none => rfl
    | some v =>
      by_cases hv : jTruthy v = true
      · simp [hv, sheets_attraction_exists, hasStorageMethod, sheetsStorageMethodNames]
      · simp [hv]

/-- Characterisation of the `... or []` child-item normalisation shared by
the three extractors: absent or falsy values give `[]`, any truthy value is
passed through unchanged. -/
theorem extract_items_character (key itemsKey : List Char)
    (kvs : List (List Char × JVal)) :
    (jget (JVal.obj kvs) itemsKey = none →
      (extract_variant_data key itemsKey (JVal.obj kvs)).map Prod.fst =
        some (JVal.arr [])) ∧
    (∀ v, jget (JVal.obj kvs) itemsKey = some v → jTruthy v = false →
      (extract_variant_data key itemsKey (JVal.obj kvs)).map Prod.fst =
        some (JVal.arr [])) ∧
    (∀ v, jget (JVal.obj kvs) itemsKey = some v → jTruthy v = true →
      (extract_variant_data key itemsKey (JVal.obj kvs)).map Prod.fst = some v) := by
  by_cases ht : jTruthy (JVal.obj kvs) = true
  · refine ⟨?_, ?_, ?_⟩
    · intro hg
      unfold extract_variant_data
      rw [ht]
      simp only [if_true, hg]
      rfl
    · intro v hg hv
      unfold extract_variant_data
      rw [ht]
      simp only [if_true, hg, hv]
      rfl
    · intro v hg hv
      unfold extract_variant_data
      rw [ht]
      simp only [if_true, hg, hv]
      rfl
  · have hkvs : kvs = [] := by
      simp only [jTruthy, Bool.not_eq_true] at ht
      simpa [List.isEmpty_iff] using ht
    subst hkvs
    refine ⟨?_, ?_, ?_⟩
    · intro _
      simp [extract_variant_data, jTruthy]
    · intro v hg
      simp [jget] at hg
    · intro v hg
      simp [jget] at hg

/-- Counterexample to claim C5 as stated: on `{"Items": "x"}` the `Items`
value is not a list, yet `extract_receipt_data` passes the string through
instead of normalising it to an empty sequence (`... or []` only replaces
falsy values). -/
theorem claim_C5_counterexample :
    jget (JVal.obj [("Items".data, JVal.str "x".data)]) "Items".data =
      some (JVal.str "x".data) ∧
    isArr (JVal.str "x".data) = false ∧
    (extract_receipt_data (JVal.obj [("Items".data, JVal.str "x".data)])).map Prod.fst =
      some (JVal.str "x".data) ∧
    JVal.str "x".data ≠ JVal.arr [] := by
  refine ⟨by rfl, by rfl, by rfl, fun h => JVal.noConfusion h⟩

/-- claim C5 (amended): child-item normalisation — for every decoded
object, each accessor's sibling child-item key ("Items", "Segments",
"RoomDetails") yields an empty sequence whenever the key is absent or its
value is falsy (None, false, empty or zero); any truthy value — list or
not — is passed through unchanged. -/
theorem claim_C5_child_items :
    (∀ kvs : List (List Char × JVal),
      (jget (JVal.obj kvs) "Items".data = none →
        (extract_receipt_data (JVal.obj kvs)).map Prod.fst = some (JVal.arr [])) ∧
      (∀ v, jget (JVal.obj kvs) "Items".data = some v → jTruthy v = false →
        (extract_receipt_data (JVal.obj kvs)).map Prod.fst = some (JVal.arr [])) ∧
      (∀ v, jget (JVal.obj kvs) "Items".data = some v → jTruthy v = true →
        (extract_receipt_data (JVal.obj kvs)).map Prod.fst = some v)) ∧
    (∀ kvs : List (List Char × JVal),
      (jget (JVal.obj kvs) "Segments".data = none →
        (extract_ticket_data (JVal.obj kvs)).map Prod.fst = some (JVal.arr [])) ∧
      (∀ v, jget (JVal.obj kvs) "Segments".data = some v → jTruthy v = false →
        (extract_ticket_data (JVal.obj kvs)).map Prod.fst = some (JVal.arr [])) ∧
      (∀ v, jget (JVal.obj kvs) "Segments".data = some v → jTruthy v = true →
        (extract_ticket_data (JVal.obj kvs)).map Prod.fst = some v)) ∧
    (∀ kvs : List (List Char × JVal),
      (jget (JVal.obj kvs) "RoomDetails".data = none →
        (extract_hotel_data (JVal.obj kvs)).map Prod.fst = some (JVal.arr [])) ∧
      (∀ v, jget (JVal.obj kvs) "RoomDetails".data = some v → jTruthy v = false →
        (extract_hotel_data (JVal.obj kvs)).map Prod.fst = some (JVal.arr [])) ∧
      (∀ v, jget (JVal.obj kvs) "RoomDetails".data = some v → jTruthy v = true →
        (extract_hotel_data (JVal.obj kvs)).map Prod.fst = some v)) :=
  ⟨fun kvs => extract_items_character "Receipt".data "Items".data kvs,
   fun kvs => extract_items_character "Ticket".data "Segments".data kvs,
   fun kvs => extract_items_character "Hotel".data "RoomDetails".data kvs⟩

/-- Witness for C5 (amended) on concrete objects: an absent key, a falsy
value and a truthy non-list value. -/
theorem claim_C5_witness :
    (extract_receipt_data (JVal.obj [("Receipt".data, JVal.arr [JVal.obj [("a".data, JVal.null)]])])).map
        Prod.fst = some (JVal.arr []) ∧
    (extract_ticket_data (JVal.obj [("Segments".data, JVal.arr [])])).map
        Prod.fst = some (JVal.arr []) ∧
    (extract_hotel_data (JVal.obj [("RoomDetails".data, JVal.str "x".data)])).map
        Prod.fst = some (JVal.str "x".data) :=
  ⟨(claim_C5_child_items.1 _).1 (by rfl),
   (claim_C5_child_items.2.1 _).2.1 _ (by rfl) (by rfl),
   (claim_C5_child_items.2.2 _).2.2 _ (by rfl) (by rfl)⟩

/-! ## Claims about the image pipeline -/

/-- claim C4: Variant priority order — with both texts decoded and the
eight extractions in hand, the pipeline runs exactly the branch of the
first variant (in the fixed order Receipt, Ticket, Hotel, Attraction)
whose primary record is truthy, falling through to the unrecognized reply;
and whenever the Receipt record is populated the dispatch picks Receipt,
regardless of the Ticket/Hotel/Attraction records (so an object with both
"Receipt" and "Ticket" populated is processed as a Receipt). -/
theorem claim_C4_variant_priority :
    (∀ (st : SheetsState) (user rt twt : List Char) (parsed ptw : JVal)
      (items segments room_details tw_items tw_segments tw_room_details : JVal)
      (receipt ticket hotel attraction tw_receipt tw_ticket tw_hotel tw_attraction : Option JVal),
      rt.isEmpty = false →
      parse_receipt_json rt = some parsed →
      parse_receipt_json twt = some ptw →
      extract_receipt_data parsed = some (items, receipt) →
      extract_ticket_data parsed = some (segments, ticket) →
      extract_hotel_data parsed = some (room_details, hotel) →
      extract_attraction_data parsed = some attraction →
      extract_receipt_data ptw = some (tw_items, tw_receipt) →
      extract_ticket_data ptw = some (tw_segments, tw_ticket) →
      extract_hotel_data ptw = some (tw_room_details, tw_hotel) →
      extract_attraction_data ptw = some tw_attraction →
      handle_image st user rt twt =
        match variantOrder.find?
            (fun v => jTruthyOpt (primaryOf v receipt ticket hotel attraction)) with
        | some Variant.receipt => receipt_branch st user items receipt tw_items tw_receipt
        | some Variant.ticket => ticket_branch st user segments ticket tw_segments tw_ticket
        | some Variant.hotel => hotel_branch st user hotel tw_room_details tw_hotel
        | some Variant.attraction => attraction_branch st user attraction tw_attraction
        | none => ⟨some Reply.unrecognized, st, true⟩) ∧
    (∀ receipt ticket hotel attraction : Option JVal, jTruthyOpt receipt = true →
      variantOrder.find?
          (fun v => jTruthyOpt (primaryOf v receipt ticket hotel attraction)) =
        some Variant.receipt) := by
  constructor
  · intro st user rt twt parsed ptw items segments room_details tw_items tw_segments
      tw_room_details receipt ticket hotel attraction tw_receipt tw_ticket tw_hotel
      tw_attraction hrt hp hptw he1 he2 he3 he4 he5 he6 he7 he8
    unfold handle_image
    rw [hrt]
    simp only [Bool.false_eq_true, if_false]
    simp only [hp, hptw, he1, he2, he3, he4, he5, he6, he7, he8]
    by_cases hr : jTruthyOpt receipt = true
    · simp [variantOrder, primaryOf, List.find?, hr]
    · rw [Bool.not_eq_true] at hr
      by_cases ht : jTruthyOpt ticket = true
      · simp [variantOrder, primaryOf, List.find?, hr, ht]
      · rw [Bool.not_eq_true] at ht
        by_cases hh : jTruthyOpt hotel = true
        · simp [variantOrder, primaryOf, List.find?, hr, ht, hh]
        · rw [Bool.not_eq_true] at hh
          by_cases ha : jTruthyOpt attraction = true
          · simp [variantOrder, primaryOf, List.find?, hr, ht, hh, ha]
          · rw [Bool.not_eq_true] at ha
            simp [variantOrder, primaryOf, List.find?, hr, ht, hh, ha]
  · intro receipt ticket hotel attraction hr
    simp [variantOrder, primaryOf, List.find?, hr]

/-- Concrete decoded object with both "Receipt" and "Ticket" populated. -/
def c4txt : List Char :=
  "\x7b\"Receipt\":[\x7b\"ReceiptID\":\"1\"\x7d],\"Items\":[],\"Ticket\":[\x7b\"TicketID\":\"2\"\x7d],\"Segments\":[]\x7d".data

/-- Its decoded form. -/
def c4obj : JVal :=
  JVal.obj [("Receipt".data, JVal.arr [JVal.obj [("ReceiptID".data, JVal.str "1".data)]]),
            ("Items".data, JVal.arr []),
            ("Ticket".data, JVal.arr [JVal.obj [("TicketID".data, JVal.str "2".data)]]),
            ("Segments".data, JVal.arr [])]

/-- The Receipt / Ticket records extracted from it. -/
def c4rec : Option JVal := some (JVal.obj [("ReceiptID".data, JVal.str "1".data)])

def c4tick : Option JVal := some (JVal.obj [("TicketID".data, JVal.str "2".data)])

/-- Witness for C4: on an object with both "Receipt" and "Ticket"
populated, the dispatch equation holds and the priority scan picks the
Receipt variant. -/
theorem claim_C4_witness :
    (handle_image freshState "U".data c4txt c4txt =
      match variantOrder.find?
          (fun v => jTruthyOpt (primaryOf v c4rec c4tick none none)) with
      | some Variant.receipt =>
        receipt_branch freshState "U".data (JVal.arr []) c4rec (JVal.arr []) c4rec
      | some Variant.ticket =>
        ticket_branch freshState "U".data (JVal.arr []) c4tick (JVal.arr []) c4tick
      | some Variant.hotel => hotel_branch freshState "U".data none (JVal.arr []) none
      | some Variant.attraction => attraction_branch freshState "U".data none none
      | none => ⟨some Reply.unrecognized, freshState, true⟩) ∧
    variantOrder.find? (fun v => jTruthyOpt (primaryOf v c4rec c4tick none none)) =
      some Variant.receipt :=
  ⟨claim_C4_variant_priority.1 freshState "U".data c4txt c4txt c4obj c4obj
      (JVal.arr []) (JVal.arr []) (JVal.arr []) (JVal.arr []) (JVal.arr []) (JVal.arr [])
      c4rec c4tick none none c4rec c4tick none none
      (by rfl) (by rfl) (by rfl) (by rfl) (by rfl) (by rfl) (by rfl) (by rfl)
      (by rfl) (by rfl) (by rfl),
   claim_C4_variant_priority.2 c4rec c4tick none none (by rfl)⟩

/-- Counterexample to claim C3 as stated: original decodes to a populated
Receipt, translated decodes to `{"Receipt": []}` — an empty primary record,
so the translated side does not yield the variant — yet the pipeline does
not terminate with the translation-failed message: the `is None` check
passes, the silent store attempt is swallowed, and rendering the non-
mapping record raises, ending the run with no reply at all (and no
cleanup). -/
theorem claim_C3_counterexample :
    parse_receipt_json "\x7b\"Receipt\":[\x7b\"ReceiptID\":\"1\"\x7d],\"Items\":[]\x7d".data =
      some (JVal.obj [("Receipt".data, JVal.arr [JVal.obj [("ReceiptID".data, JVal.str "1".data)]]),
                      ("Items".data, JVal.arr [])]) ∧
    extract_receipt_data
        (JVal.obj [("Receipt".data, JVal.arr [JVal.obj [("ReceiptID".data, JVal.str "1".data)]]),
                   ("Items".data, JVal.arr [])]) =
      some (JVal.arr [], some (JVal.obj [("ReceiptID".data, JVal.str "1".data)])) ∧
    jTruthy (JVal.obj [("ReceiptID".data, JVal.str "1".data)]) = true ∧
    parse_receipt_json "\x7b\"Receipt\":[]\x7d".data =
      some (JVal.obj [("Receipt".data, JVal.arr [])]) ∧
    extract_receipt_data (JVal.obj [("Receipt".data, JVal.arr [])]) =
      some (JVal.arr [], some (JVal.arr [])) ∧
    jTruthy (JVal.arr []) = false ∧
    handle_image freshState "U".data
        "\x7b\"Receipt\":[\x7b\"ReceiptID\":\"1\"\x7d],\"Items\":[]\x7d".data
        "\x7b\"Receipt\":[]\x7d".data =
      ⟨none, freshState, false⟩ :=
  ⟨by rfl, by rfl, by rfl, by rfl, by rfl, by rfl, by rfl⟩

/-- claim C3 (amended): bilingual reconciliation fails safe — when the
original decodes to a recognized variant and the translated output either
fails to decode or its extraction yields `None` for that variant (the
variant key absent), the pipeline terminates with the translation-failed
reply, the ledger is unchanged, the temp file is removed, and the
original-language record is never stored or displayed.  (When the
translated extraction is falsy but not `None` — e.g. an empty list — the
`is None` check passes and the run instead dies un-replied; see the
counterexample.) -/
theorem claim_C3_translation_fail_safe :
    (∀ (st : SheetsState) (user rt twt : List Char) (parsed : JVal),
      rt.isEmpty = false →
      parse_receipt_json rt = some parsed →
      parse_receipt_json twt = none →
      handle_image st user rt twt = ⟨some Reply.twDecodeFailed, st, true⟩) ∧
    (∀ (st : SheetsState) (user rt twt : List Char) (parsed ptw : JVal)
      (items segments room_details tw_items tw_segments tw_room_details : JVal)
      (receipt ticket hotel attraction tw_ticket tw_hotel tw_attraction : Option JVal),
      rt.isEmpty = false →
      parse_receipt_json rt = some parsed →
      parse_receipt_json twt = some ptw →
      extract_receipt_data parsed = some (items, receipt) →
      extract_ticket_data parsed = some (segments, ticket) →
      extract_hotel_data parsed = some (room_details, hotel) →
      extract_attraction_data parsed = some attraction →
      extract_receipt_data ptw = some (tw_items, none) →
      extract_ticket_data ptw = some (tw_segments, tw_ticket) →
      extract_hotel_data ptw = some (tw_room_details, tw_hotel) →
      extract_attraction_data ptw = some tw_attraction →
      jTruthyOpt receipt = true →
      handle_image st user rt twt =
        ⟨some (Reply.twVariantFailed Variant.receipt), st, true⟩) ∧
    (∀ (st : SheetsState) (user rt twt : List Char) (parsed ptw : JVal)
      (items segments room_details tw_items tw_segments tw_room_details : JVal)
      (receipt ticket hotel attraction tw_receipt tw_hotel tw_attraction : Option JVal),
      rt.isEmpty = false →
      parse_receipt_json rt = some parsed →
      parse_receipt_json twt = some ptw →
      extract_receipt_data parsed = some (items, receipt) →
      extract_ticket_data parsed = some (segments, ticket) →
      extract_hotel_data parsed = some (room_details, hotel) →
      extract_attraction_data parsed = some attraction →
      extract_receipt_data ptw = some (tw_items, tw_receipt) →
      extract_ticket_data ptw = some (tw_segments, none) →
      extract_hotel_data ptw = some (tw_room_details, tw_hotel) →
      extract_attraction_data ptw = some tw_attraction →
      jTruthyOpt receipt = false →
      jTruthyOpt ticket = true →
      handle_image st user rt twt =
        ⟨some (Reply.twVariantFailed Variant.ticket), st, true⟩) ∧
    (∀ (st : SheetsState) (user rt twt : List Char) (parsed ptw : JVal)
      (items segments room_details tw_items tw_segments tw_room_details : JVal)
      (receipt ticket hotel attraction tw_receipt tw_ticket tw_attraction : Option JVal),
      rt.isEmpty = false →
      parse_receipt_json rt = some parsed →
      parse_receipt_json twt = some ptw →
      extract_receipt_data parsed = some (items, receipt) →
      extract_ticket_data parsed = some (segments, ticket) →
      extract_hotel_data parsed = some (room_details, hotel) →
      extract_attraction_data parsed = some attraction →
      extract_receipt_data ptw = some (tw_items, tw_receipt) →
      extract_ticket_data ptw = some (tw_segments, tw_ticket) →
      extract_hotel_data ptw = some (tw_room_details, none) →
      extract_attraction_data ptw = some tw_attraction →
      jTruthyOpt receipt = false →
      jTruthyOpt ticket = false →
      jTruthyOpt hotel = true →
      handle_image st user rt twt =
        ⟨some (Reply.twVariantFailed Variant.hotel), st, true⟩) ∧
    (∀ (st : SheetsState) (user rt twt : List Char) (parsed ptw : JVal)
      (items segments room_details tw_items tw_segments tw_room_details : JVal)
      (receipt ticket hotel attraction tw_receipt tw_ticket tw_hotel : Option JVal),
      rt.isEmpty = false →
      parse_receipt_json rt = some parsed →
      parse_receipt_json twt = some ptw →
      extract_receipt_data parsed = some (items, receipt) →
      extract_ticket_data parsed = some (segments, ticket) →
      extract_hotel_data parsed = some (room_details, hotel) →
      extract_attraction_data parsed = some attraction →
      extract_receipt_data ptw = some (tw_items, tw_receipt) →
      extract_ticket_data ptw = some (tw_segments, tw_ticket) →
      extract_hotel_data ptw = some (tw_room_details, tw_hotel) →
      extract_attraction_data ptw = some none →
      jTruthyOpt receipt = false →
      jTruthyOpt ticket = false →
      jTruthyOpt hotel = false →
      jTruthyOpt attraction = true →
      handle_image st user rt twt =
        ⟨some (Reply.twVariantFailed Variant.attraction), st, true⟩) := by
  refine ⟨?_, ?_, ?_, ?_, ?_⟩
  · intro st user rt twt parsed hrt hp hptw
    unfold handle_image
    rw [hrt]
    simp only [Bool.false_eq_true, if_false]
    simp only [hp, hptw]
  · intro st user rt twt parsed ptw items segments room_details tw_items tw_segments
      tw_room_details receipt ticket hotel attraction tw_ticket tw_hotel tw_attraction
      hrt hp hptw he1 he2 he3 he4 he5 he6 he7 he8 hr
    unfold handle_image
    rw [hrt]
    simp only [Bool.false_eq_true, if_false]
    simp only [hp, hptw, he1, he2, he3, he4, he5, he6, he7, he8, hr, if_true]
    rfl
  · intro st user rt twt parsed ptw items segments room_details tw_items tw_segments
      tw_room_details receipt ticket hotel attraction tw_receipt tw_hotel tw_attraction
      hrt hp hptw he1 he2 he3 he4 he5 he6 he7 he8 hr ht
    unfold handle_image
    rw [hrt]
    simp only [Bool.false_eq_true, if_false]
    simp only [hp, hptw, he1, he2, he3, he4, he5, he6, he7, he8, hr, ht,
      Bool.false_eq_true, if_false, if_true]
    rfl
  · intro st user rt twt parsed ptw items segments room_details tw_items tw_segments
      tw_room_details receipt ticket hotel attraction tw_receipt tw_ticket tw_attraction
      hrt hp hptw he1 he2 he3 he4 he5 he6 he7 he8 hr ht hh
    unfold handle_image
    rw [hrt]
    simp only [Bool.false_eq_true, if_false]
    simp only [hp, hptw, he1, he2, he3, he4, he5, he6, he7, he8, hr, ht, hh,
      Bool.false_eq_true, if_false, if_true]
    rfl
  · intro st user rt twt parsed ptw items segments room_details tw_items tw_segments
      tw_room_details receipt ticket hotel attraction tw_receipt tw_ticket tw_hotel
      hrt hp hptw he1 he2 he3 he4 he5 he6 he7 he8 hr ht hh ha
    unfold handle_image
    rw [hrt]
    simp only [Bool.false_eq_true, if_false]
    simp only [hp, hptw, he1, he2, he3, he4, he5, he6, he7, he8, hr, ht, hh, ha,
      Bool.false_eq_true, if_false, if_true]
    rfl

/-- Concrete original-language decode for the C3 witness run. -/
def c3orig : List Char := "\x7b\"Receipt\":[\x7b\"ReceiptID\":\"1\"\x7d],\"Items\":[]\x7d".data

/-- Concrete translated decode for the C3 witness run: no `Receipt` key, so
the receipt extraction of the translated side yields `None`. -/
def c3tw : List Char := "\x7b\"Items\":[]\x7d".data

theorem claim_C3_witness :
    handle_image freshState "U".data c3orig c3tw =
      ⟨some (Reply.twVariantFailed Variant.receipt), freshState, true⟩ :=
  claim_C3_translation_fail_safe.2.1 freshState "U".data c3orig c3tw
    (JVal.obj [("Receipt".data, JVal.arr [JVal.obj [("ReceiptID".data, JVal.str "1".data)]]),
      ("Items".data, JVal.arr [])])
    (JVal.obj [("Items".data, JVal.arr [])])
    (JVal.arr []) (JVal.arr []) (JVal.arr []) (JVal.arr []) (JVal.arr []) (JVal.arr [])
    (some (JVal.obj [("ReceiptID".data, JVal.str "1".data)])) none none none none none none
    (by rfl) (by rfl) (by rfl) (by rfl) (by rfl) (by rfl) (by rfl) (by rfl) (by rfl)
    (by rfl) (by rfl) (by rfl)

/-! ## Claim C9: the duplicate check probes the original `ReceiptID`, the
stored row carries the translated one. -/

/-- The receipt branch at two mapping records, written out as the decision
tree it immediately reduces to. -/
theorem receipt_branch_objs (s : SheetsState) (user : List Char) (items tw_items : JVal)
    (ro tob : List (List Char × JVal)) :
    receipt_branch s user items (some (JVal.obj ro)) tw_items (some (JVal.obj tob)) =
      if check_if_receipt_exists s user (jget (JVal.obj ro) "ReceiptID".data) then
        if renderRecordOk (JVal.obj ro) items && renderRecordOk (JVal.obj tob) tw_items then
          ⟨some (Reply.processed Variant.receipt true), s, true⟩
        else ⟨none, s, false⟩
      else
        if renderRecordOk (JVal.obj ro) items && renderRecordOk (JVal.obj tob) tw_items then
          ⟨some (Reply.processed Variant.receipt false), add_receipt s user (JVal.obj tob), true⟩
        else ⟨none, add_receipt s user (JVal.obj tob), false⟩ := rfl

/-- claim C9: for a run that stores a receipt, the existence check is made
with the ORIGINAL extraction's `ReceiptID` (`a`) while the appended ledger
row carries the TRANSLATED extraction's `ReceiptID` (`b`); no equality
between them is checked, so when `a ≠ b` the stored ledger still does not
contain `a` and a resubmission of the same document stores a second copy. -/
theorem claim_C9_dedup_key_divergence
    (st : SheetsState) (user rt twt : List Char) (parsed ptw : JVal)
    (items segments room_details tw_items tw_segments tw_room_details : JVal)
    (ticket hotel attraction tw_ticket tw_hotel tw_attraction : Option JVal)
    (ro tob : List (List Char × JVal)) (a b : List Char)
    (hrt : rt.isEmpty = false)
    (hp : parse_receipt_json rt = some parsed)
    (hptw : parse_receipt_json twt = some ptw)
    (he1 : extract_receipt_data parsed = some (items, some (JVal.obj ro)))
    (he2 : extract_ticket_data parsed = some (segments, ticket))
    (he3 : extract_hotel_data parsed = some (room_details, hotel))
    (he4 : extract_attraction_data parsed = some attraction)
    (he5 : extract_receipt_data ptw = some (tw_items, some (JVal.obj tob)))
    (he6 : extract_ticket_data ptw = some (tw_segments, tw_ticket))
    (he7 : extract_hotel_data ptw = some (tw_room_details, tw_hotel))
    (he8 : extract_attraction_data ptw = some tw_attraction)
    (hro : jget (JVal.obj ro) "ReceiptID".data = some (JVal.str a))
    (hto : jget (JVal.obj tob) "ReceiptID".data = some (JVal.str b))
    (ha : a.isEmpty = false)
    (hnd : row_exists st.receipts user (JVal.str a) = false)
    (hr1 : renderRecordOk (JVal.obj ro) items = true)
    (hr2 : renderRecordOk (JVal.obj tob) tw_items = true) :
    handle_image st user rt twt =
      ⟨some (Reply.processed Variant.receipt false),
       { st with receipts := st.receipts ++ [⟨user, JVal.str b⟩] }, true⟩ ∧
    (a ≠ b →
      receipt_exists { st with receipts := st.receipts ++ [⟨user, JVal.str b⟩] }
          user (JVal.str a) = false) ∧
    (a ≠ b →
      handle_image { st with receipts := st.receipts ++ [⟨user, JVal.str b⟩] } user rt twt =
        ⟨some (Reply.processed Variant.receipt false),
         { st with receipts := (st.receipts ++ [⟨user, JVal.str b⟩]) ++ [⟨user, JVal.str b⟩] },
         true⟩) := by
  have hrone : ro ≠ [] := jget_obj_ne_nil hro
  have htone : tob ≠ [] := jget_obj_ne_nil hto
  have htr : jTruthyOpt (some (JVal.obj ro)) = true := by
    simp [jTruthyOpt, jTruthy, hrone]
  have hta : jTruthy (JVal.str a) = true := by
    simp [jTruthy]
    intro hc
    rw [List.isEmpty_iff.mpr hc] at ha
    exact Bool.noConfusion ha
  have key : ∀ s : SheetsState, row_exists s.receipts user (JVal.str a) = false →
      handle_image s user rt twt =
        ⟨some (Reply.processed Variant.receipt false),
         { s with receipts := s.receipts ++ [⟨user, JVal.str b⟩] }, true⟩ := by
    intro s hs
    unfold handle_image
    rw [hrt]
    simp only [Bool.false_eq_true, if_false]
    simp only [hp, hptw, he1, he2, he3, he4, he5, he6, he7, he8, htr, if_true]
    rw [receipt_branch_objs]
    have hchk : check_if_receipt_exists s user (jget (JVal.obj ro) "ReceiptID".data) = false := by
      rw [hro]
      simp only [check_if_receipt_exists, receipt_exists, hta, Bool.not_true,
        Bool.false_eq_true, if_false]
      exact hs
    rw [hchk]
    simp only [Bool.false_eq_true, if_false, hr1, hr2, Bool.and_self, if_true]
    have hadd : add_receipt s user (JVal.obj tob) =
        { s with receipts := s.receipts ++ [⟨user, JVal.str b⟩] } := by
      have htt : jTruthy (JVal.obj tob) = true := by simp [jTruthy, htone]
      simp only [add_receipt, store_receipt, htt, Bool.not_true, Bool.false_eq_true,
        if_false, hto]
      rfl
    rw [hadd]
  have hpostrow : a ≠ b →
      row_exists (st.receipts ++ [⟨user, JVal.str b⟩]) user (JVal.str a) = false := by
    intro hab
    have hba : (b == a) = false := beq_eq_false_iff_ne.mpr (fun h => hab h.symm)
    have h1 : row_matches ⟨user, JVal.str b⟩ user (JVal.str a) = false := by
      simp [row_matches, pyStr, hba]
    unfold row_exists
    rw [List.any_append]
    have hnd' : st.receipts.any (fun row => row_matches row user (JVal.str a)) = false := hnd
    rw [hnd']
    simp [h1]
  have hpost : a ≠ b →
      receipt_exists { st with receipts := st.receipts ++ [⟨user, JVal.str b⟩] }
          user (JVal.str a) = false := by
    intro hab
    unfold receipt_exists
    rw [hta]
    simp only [Bool.not_true, Bool.false_eq_true, if_false]
    exact hpostrow hab
  exact ⟨key st hnd, hpost, fun hab => key _ (hpostrow hab)⟩

/-- Concrete original decode for the C9 witness: `ReceiptID` is `"1"`. -/
def c9orig : List Char := "\x7b\"Receipt\":[\x7b\"ReceiptID\":\"1\"\x7d],\"Items\":[]\x7d".data

/-- Concrete translated decode for the C9 witness: `ReceiptID` is `"2"`. -/
def c9tw : List Char := "\x7b\"Receipt\":[\x7b\"ReceiptID\":\"2\"\x7d],\"Items\":[]\x7d".data

theorem claim_C9_witness :
    (handle_image freshState "U".data c9orig c9tw =
      ⟨some (Reply.processed Variant.receipt false),
       ⟨[⟨"U".data, JVal.str "2".data⟩], []⟩, true⟩) ∧
    receipt_exists ⟨[⟨"U".data, JVal.str "2".data⟩], []⟩ "U".data (JVal.str "1".data) = false := by
  have h := claim_C9_dedup_key_divergence freshState "U".data c9orig c9tw
    (JVal.obj [("Receipt".data, JVal.arr [JVal.obj [("ReceiptID".data, JVal.str "1".data)]]),
      ("Items".data, JVal.arr [])])
    (JVal.obj [("Receipt".data, JVal.arr [JVal.obj [("ReceiptID".data, JVal.str "2".data)]]),
      ("Items".data, JVal.arr [])])
    (JVal.arr []) (JVal.arr []) (JVal.arr []) (JVal.arr []) (JVal.arr []) (JVal.arr [])
    none none none none none none
    [("ReceiptID".data, JVal.str "1".data)] [("ReceiptID".data, JVal.str "2".data)]
    "1".data "2".data
    (by rfl) (by rfl) (by rfl) (by rfl) (by rfl) (by rfl) (by rfl) (by rfl) (by rfl)
    (by rfl) (by rfl) (by rfl) (by rfl) (by rfl) (by rfl) (by rfl) (by rfl)
  exact ⟨h.1, h.2.1 (by decide)⟩

/-! ## Claim C10: temp-file cleanup runs on the handled exits only. -/

/-- Counterexample to claim C10 as stated: `"[1]"` decodes (for both
languages) to a truthy non-mapping, so `extract_receipt_data` raises
`AttributeError` before any branch is reached; the exception is unhandled
in `handle_callback`, the run ends with no reply and the temp file is
never removed. -/
theorem claim_C10_counterexample :
    parse_receipt_json "[1]".data = some (JVal.arr [JVal.num "1".data]) ∧
    extract_receipt_data (JVal.arr [JVal.num "1".data]) = none ∧
    handle_image freshState "U".data "[1]".data "[1]".data = ⟨none, freshState, false⟩ :=
  ⟨by rfl, by rfl, by rfl⟩

/-- In the receipt branch, a reply is produced exactly when the cleanup
(`os.remove`) is reached. -/
theorem receipt_branch_clean (st : SheetsState) (user : List Char)
    (items : JVal) (receipt : Option JVal) (tw_items : JVal) (tw_receipt : Option JVal) :
    (receipt_branch st user items receipt tw_items tw_receipt).reply.isSome =
      (receipt_branch st user items receipt tw_items tw_receipt).cleaned := by
  unfold receipt_branch
  cases tw_receipt with
  | none => rfl
  | some twr =>
    cases receipt with
    | none => rfl
    | some r =>
      cases r <;> try rfl
      case obj rkvs =>
        simp only
        split <;> split <;> rfl

/-- Same statement for the ticket branch. -/
theorem ticket_branch_clean (st : SheetsState) (user : List Char)
    (segments : JVal) (ticket : Option JVal) (tw_segments : JVal) (tw_ticket : Option JVal) :
    (ticket_branch st user segments ticket tw_segments tw_ticket).reply.isSome =
      (ticket_branch st user segments ticket tw_segments tw_ticket).cleaned := by
  unfold ticket_branch
  cases tw_ticket with
  | none => rfl
  | some twt =>
    cases ticket with
    | none => rfl
    | some r =>
      cases r <;> try rfl
      case obj tkvs =>
        simp only
        split
        · rfl
        · split <;> split <;> rfl

/-- Same statement for the hotel branch. -/
theorem hotel_branch_clean (st : SheetsState) (user : List Char)
    (hotel : Option JVal) (tw_room_details : JVal) (tw_hotel : Option JVal) :
    (hotel_branch st user hotel tw_room_details tw_hotel).reply.isSome =
      (hotel_branch st user hotel tw_room_details tw_hotel).cleaned := by
  unfold hotel_branch
  cases tw_hotel with
  | none => rfl
  | some twh =>
    cases hotel with
    | none => rfl
    | some r =>
      cases r <;> try rfl
      case obj hkvs =>
        simp only
        split
        · rfl
        · split <;> split <;> rfl

/-- Same statement for the attraction branch. -/
theorem attraction_branch_clean (st : SheetsState) (user : List Char)
    (attraction : Option JVal) (tw_attraction : Option JVal) :
    (attraction_branch st user attraction tw_attraction).reply.isSome =
      (attraction_branch st user attraction tw_attraction).cleaned := by
  unfold attraction_branch
  cases tw_attraction with
  | none => rfl
  | some twa =>
    cases attraction with
    | none => rfl
    | some r =>
      cases r <;> try rfl
      case obj akvs =>
        simp only
        split
        · rfl
        · split <;> split <;> rfl

/-- claim C10 (amended): the temp file is removed exactly on the handled
exit paths — a run sends a terminal reply (no raw response, decode failure,
translation-decode failure, per-variant translation failure, missing
identifier, duplicate, successful store, unrecognized type) iff it reaches
the cleanup; the unhandled-exception exits (see the counterexample) skip
both the reply and the cleanup. -/
theorem claim_C10_cleanup (st : SheetsState) (user rt twt : List Char) :
    (handle_image st user rt twt).reply.isSome = (handle_image st user rt twt).cleaned := by
  unfold handle_image
  split
  · rfl
  split
  · rfl
  split
  · rfl
  split
  · split
    · exact receipt_branch_clean _ _ _ _ _ _
    split
    · exact ticket_branch_clean _ _ _ _ _ _
    split
    · exact hotel_branch_clean _ _ _ _ _
    split
    · exact attraction_branch_clean _ _ _ _
    · rfl
  all_goals rfl
